import Mathlib

/-!
# SetupForMe backend: the script generator and the application registry handlers

A shallow embedding of `handlers/app.go` (with `models/models.go` and
`utils/winget.go`) and the properties proved about it.

Conventions of the embedding.

* Go strings are Lean `String`s.  Every string the handlers see comes out of
  `encoding/json` or out of the `apps` table, so it is valid UTF-8, and the only
  characters the code inspects one by one are ASCII (the single quote) or whole
  code points (`strings.TrimSpace`); reading a string as its list of code points
  therefore agrees with Go's byte-wise reading.
* Go `int` identifiers are `Int`; the loop counter `appCount` is a `Nat` (it
  counts rows and is never decremented).
* The handlers are written in state-passing style over an in-memory `apps`
  table and return, next to the response, the ordered list of effects they
  performed.  The table refuses what its declaration in `database/db.go`
  excludes, a `name` or `winget_id` longer than 255 characters; other faults of
  the database server (a lost connection, a missing `users` row) are not
  modelled.
* In string literals an opening brace is written `\x7b` and a closing brace
  `\x7d`.
-/

namespace SetupForMe

/-! ## Strings -/

/-- Worker of `ReplaceAll` for a non-empty `old`: scans left to right, and at
each position where `old` starts emits `new` and skips the rest of the match
(`skip` counts the characters of the current match still to be dropped), so the
replaced occurrences do not overlap. -/
def replaceAux (old new : List Char) : Nat → List Char → List Char
  | _, [] => []
  | skip + 1, _ :: cs => replaceAux old new skip cs
  | 0, c :: cs =>
    if old.isPrefixOf (c :: cs) then new ++ replaceAux old new (old.length - 1) cs
    else c :: replaceAux old new 0 cs

/-- Go's `strings.ReplaceAll(s, old, new)` for a non-empty `old`. -/
def ReplaceAll (s old new : String) : String :=
  ⟨replaceAux old.data new.data 0 s.data⟩

/-- Go's `strings.HasPrefix`. -/
def HasPrefix (s pre : String) : Bool :=
  pre.data.isPrefixOf s.data

/-- Go's `strings.Join(elems, sep)`. -/
def Join : List String → String → String
  | [], _ => ""
  | [a], _ => a
  | a :: b :: rest, sep => a ++ sep ++ Join (b :: rest) sep

/-- Go's `unicode.IsSpace`: the Latin-1 spaces and the code points with the
Unicode White_Space property. -/
def isSpace (c : Char) : Bool :=
  c = '\t' || c = '\n' || c = '\x0b' || c = '\x0c' || c = '\r' || c = ' ' ||
  c = '\u0085' || c = '\u00a0' || c = '\u1680' ||
  (0x2000 ≤ c.toNat && c.toNat ≤ 0x200a) ||
  c = '\u2028' || c = '\u2029' || c = '\u202f' || c = '\u205f' || c = '\u3000'

/-- Go's `strings.TrimSpace`: drop the leading and the trailing white space. -/
def TrimSpace (s : String) : String :=
  ⟨((s.data.dropWhile isSpace).reverse.dropWhile isSpace).reverse⟩

/-- The pieces of a text between its line feeds (Go's `strings.Split(s, "\n")`
on the character list). -/
def splitNL : List Char → List (List Char)
  | [] => [[]]
  | c :: cs =>
    match splitNL cs with
    | [] => [[c]]
    | l :: ls => if c = '\n' then [] :: l :: ls else (c :: l) :: ls

/-- The lines of a text. -/
def textLines (s : String) : List String :=
  (splitNL s.data).map String.mk

/-! ## The quoting closure of `GenerateScript` -/

/-- The closure `psSingle` of `GenerateScript`:
`"'" + strings.ReplaceAll(s, "'", "''") + "'"`. -/
def psSingle (s : String) : String :=
  "'" ++ ReplaceAll s "'" "''" ++ "'"

/-- Reader of the inside of a PowerShell single-quoted literal, after its
opening quote: a doubled quote stands for one quote, the first quote that is not
doubled ends the literal.  Returns the decoded text and what follows the closing
quote, or `none` when the literal is not closed. -/
def readBody : List Char → Option (List Char × List Char)
  | [] => none
  | c :: cs =>
    if c = '\'' then
      match cs with
      | [] => some ([], [])
      | d :: ds =>
        if d = '\'' then (readBody ds).map (fun p => ('\'' :: p.1, p.2))
        else some ([], d :: ds)
    else (readBody cs).map (fun p => (c :: p.1, p.2))

/-- Reader of one PowerShell single-quoted literal at the start of `t`: the
decoded text and the rest of `t` after the closing quote. -/
def readLiteral (t : String) : Option (String × String) :=
  match t.data with
  | [] => none
  | c :: cs =>
    if c = '\'' then (readBody cs).map (fun p => (String.mk p.1, String.mk p.2))
    else none

/-! ## Data model (`models/models.go`) -/

/-- The struct `models.App`. -/
structure App where
  ID : Int
  UserID : Int
  Name : String
  WingetID : String
  DownloadURL : String
  Args : String
  deriving DecidableEq, Repr

/-- The struct `models.CreateAppRequest`. -/
structure CreateAppRequest where
  Name : String
  WingetID : String
  DownloadURL : String
  Args : String
  deriving DecidableEq, Repr

/-- The struct `models.UpdateAppRequest`. -/
structure UpdateAppRequest where
  Name : String
  WingetID : String
  DownloadURL : String
  Args : String
  deriving DecidableEq, Repr

/-! ## The script generator (`GenerateScript`) -/

/-- The wall-clock reading `time.Now()` as its calendar fields. -/
structure Clock where
  year : Nat
  month : Nat
  day : Nat
  hour : Nat
  minute : Nat
  second : Nat
  deriving DecidableEq, Repr

/-- The helper `appendInt` of Go's `time` package on a non-negative value: the
decimal digits, padded with zeros on the left to `width`. -/
def appendInt (x width : Nat) : String :=
  String.mk (List.replicate (width - (Nat.repr x).length) '0') ++ Nat.repr x

/-- The value of `time.Now().Format("2006-01-02 15:04:05")`. -/
def formatStamp (now : Clock) : String :=
  appendInt now.year 4 ++ "-" ++ appendInt now.month 2 ++ "-" ++ appendInt now.day 2 ++ " " ++
    appendInt now.hour 2 ++ ":" ++ appendInt now.minute 2 ++ ":" ++ appendInt now.second 2

/-- The lines appended to `scriptLines` before the loop over the rows. -/
def preamble (now : Clock) : List String := [
  "# SetupForMe - Generated Installation Script",
  "# Generated on: " ++ formatStamp now,
  "",
  "$ErrorActionPreference = 'Stop'",
  "",
  "function Install-WingetApp \x7b param([string]$Id, [string]$Args)",
  "  $argList = \"-e --id $Id --accept-source-agreements --accept-package-agreements\"",
  "  if ($Args -and $Args.Trim() -ne '') \x7b $argList = \"$argList $Args\" \x7d",
  "  Write-Host \"winget $argList\" -ForegroundColor Cyan",
  "  Start-Process 'winget' -ArgumentList $argList -Wait -NoNewWindow",
  "\x7d",
  "",
  "function Install-FromUrl \x7b param([string]$Url, [string]$Args)",
  "  $fileName = [System.IO.Path]::GetFileName(([System.Uri]$Url).AbsolutePath)",
  "  if ([string]::IsNullOrWhiteSpace($fileName)) \x7b $fileName = 'installer.exe' \x7d",
  "  $dest = Join-Path $env:TEMP (\"SetupForMe_\" + [guid]::NewGuid().ToString() + '_' + $fileName)",
  "  Write-Host \"Downloading $Url to $dest\" -ForegroundColor DarkCyan",
  "  Invoke-WebRequest -Uri $Url -OutFile $dest",
  "  $psi = New-Object System.Diagnostics.ProcessStartInfo",
  "  $psi.FileName = $dest",
  "  if ($Args -and $Args.Trim() -ne '') \x7b $psi.Arguments = $Args \x7d",
  "  $psi.UseShellExecute = $true",
  "  $p = [System.Diagnostics.Process]::Start($psi)",
  "  $p.WaitForExit()",
  "\x7d",
  "",
  "Write-Host 'Starting application installation...' -ForegroundColor Green",
  ""]

/-- The local `appName` of the loop body: the row's name, or `"Unknown App"`
when it is empty. -/
def appName (r : App) : String :=
  if r.Name = "" then "Unknown App" else r.Name

/-- The line appended between `try {` and the `Finished:` line: the
three-way branch on `wingetID.String` and `downloadURL.String`. -/
def installLine (r : App) : String :=
  if r.WingetID ≠ "" then
    "  Install-WingetApp " ++ psSingle r.WingetID ++ " " ++ psSingle r.Args
  else if r.DownloadURL ≠ "" then
    "  Install-FromUrl " ++ psSingle r.DownloadURL ++ " " ++ psSingle r.Args
  else
    "  Write-Host 'No installer info provided.' -ForegroundColor DarkYellow"

/-- The seven lines one iteration of the loop appends, for the row `r` and the
already incremented counter `appCount`. -/
def appBlock (appCount : Nat) (r : App) : List String := [
  "# App " ++ toString appCount ++ ": " ++ appName r,
  "Write-Host 'Installing " ++ appName r ++ "...' -ForegroundColor Yellow",
  "try \x7b",
  installLine r,
  "  Write-Host 'Finished: " ++ appName r ++ "' -ForegroundColor Green",
  "\x7d catch \x7b Write-Host ('Failed: ' + '" ++ ReplaceAll (appName r) "'" "''" ++
    "' + ' - ' + $_.Exception.Message) -ForegroundColor Red \x7d",
  ""]

/-- The loop `for rows.Next()`: threads the counter `appCount` and the
accumulated `scriptLines` through the rows. -/
def appLoop : Nat → List String → List App → Nat × List String
  | appCount, lines, [] => (appCount, lines)
  | appCount, lines, r :: rs => appLoop (appCount + 1) (lines ++ appBlock (appCount + 1) r) rs

/-- The footer line, chosen by the final value of `appCount`. -/
def footer (appCount : Nat) : String :=
  if appCount = 0 then "Write-Host \"No applications to install.\" -ForegroundColor Yellow"
  else "Write-Host \"Installation complete!\" -ForegroundColor Green"

/-- The final value of the slice `scriptLines` for the fetched rows. A row is
given by its four strings: a `NULL` column scans into `sql.NullString` and reads
as the empty string. -/
def scriptLines (now : Clock) (rows : List App) : List String :=
  let st := appLoop 0 (preamble now) rows
  st.2 ++ [footer st.1]

/-- The generated script: `strings.Join(scriptLines, "\n")`. -/
def script (now : Clock) (rows : List App) : String :=
  Join (scriptLines now rows) "\n"

/-! ## Collaborators outside the repository -/

/-- The fields of Go's `url.URL` that `isValidURL` reads. -/
structure URL where
  Scheme : String
  Host : String
  deriving DecidableEq, Repr

/-- The answer of `httpClient.Do` to the package search: its status code and the
identifiers of `Packages` in the decoded body, `none` when the body does not
decode. -/
structure WingetReply where
  StatusCode : Nat
  Packages : Option (List String)
  deriving DecidableEq, Repr

/-- The library and network behaviour the handlers depend on. -/
structure Env where
  /-- Go's `url.Parse`; `none` stands for a returned error. -/
  urlParse : String → Option URL
  /-- The request to `https://api.winget.run/v2/packages` with the given `query`
  value; `none` stands for a transport error, the 8 second timeout included. -/
  httpGet : String → Option WingetReply

/-! ## `utils.ResolveWingetID` and `isValidURL` -/

/-- The function `utils.ResolveWingetID`: the identifier of the first package
found for the name, or an error. -/
def ResolveWingetID (env : Env) (name : String) : Except String String :=
  if name = "" then .error "app name is empty"
  else
    match env.httpGet name with
    | none => .error "transport error"
    | some resp =>
      if resp.StatusCode ≠ 200 then .error "winget.run returned status"
      else
        match resp.Packages with
        | none => .error "decode error"
        | some [] => .error "no package found"
        | some (p :: _) => .ok p

/-- The function `isValidURL`. -/
def isValidURL (env : Env) (rawURL : String) : Bool :=
  match env.urlParse rawURL with
  | none => false
  | some parsedURL =>
    if parsedURL.Scheme ≠ "https" then false
    else if parsedURL.Host = "" then false
    else true

/-! ## The `apps` table -/

/-- The `apps` table: its rows in insertion order and the last value handed out
by the `SERIAL` sequence of its `id` column. -/
structure DB where
  apps : List App
  lastID : Int
  deriving DecidableEq, Repr

/-- The errors of a statement, as the handlers tell them apart. -/
inductive DBError where
  | ErrNoRows
  | other
  deriving DecidableEq, Repr

/-- The statement `SELECT user_id FROM apps WHERE id = $1` scanned into one
value. -/
def queryOwner (db : DB) (appID : Int) : Except DBError Int :=
  match db.apps.find? (fun a => a.ID = appID) with
  | none => .error .ErrNoRows
  | some a => .ok a.UserID

/-- The columns `name` and `winget_id` are declared `VARCHAR(255)`: a statement
that would store a longer value in one of them is refused. (PostgreSQL cuts off
an excess made of spaces only instead of refusing; such a value counts as
refused here.) -/
def fitsColumns (name wingetID : String) : Bool :=
  name.length ≤ 255 && wingetID.length ≤ 255

/-- The statement `INSERT INTO apps (...) VALUES (...) RETURNING id`. -/
def execInsert (db : DB) (userID : Int) (name wingetID downloadURL args : String) :
    Except DBError (Int × DB) :=
  if fitsColumns name wingetID then
    let appID := db.lastID + 1
    .ok (appID, ⟨db.apps ++ [⟨appID, userID, name, wingetID, downloadURL, args⟩], appID⟩)
  else .error .other

/-- The statement `UPDATE apps SET name = $1, winget_id = $2, download_url = $3,
args = $4 WHERE id = $5`. -/
def execUpdate (db : DB) (name wingetID downloadURL args : String) (appID : Int) :
    Except DBError DB :=
  if fitsColumns name wingetID then
    .ok ⟨db.apps.map (fun a =>
      if a.ID = appID then ⟨a.ID, a.UserID, name, wingetID, downloadURL, args⟩ else a),
      db.lastID⟩
  else .error .other

/-- The statement `DELETE FROM apps WHERE id = $1`. -/
def execDelete (db : DB) (appID : Int) : Except DBError DB :=
  .ok ⟨db.apps.filter (fun a => a.ID ≠ appID), db.lastID⟩

/-- The rows of `SELECT ... FROM apps WHERE user_id = $1`. -/
def queryApps (db : DB) (userID : Int) : List App :=
  db.apps.filter (fun a => a.UserID = userID)

/-! ## The handlers -/

/-- The effects a handler performs, in the order it performs them. -/
inductive Effect where
  | decodeBody
  | queryOwner (appID : Int)
  | resolve (name : String)
  | insert (userID : Int) (name wingetID downloadURL args : String)
  | update (appID : Int) (name wingetID downloadURL args : String)
  | delete (appID : Int)
  deriving DecidableEq, Repr

/-- What a handler writes: an error through `writeErrorResponse`, an encoded
record, or an empty body. -/
inductive Response where
  | error (status : Nat) (message : String)
  | app (status : Nat) (app : App)
  | empty (status : Nat)
  deriving DecidableEq, Repr

/-- The status code of a response. -/
def Response.status : Response → Nat
  | .error status _ => status
  | .app status _ => status
  | .empty status => status

/-- The result of running a handler: the response, the table afterwards, and
the effects performed. -/
structure Outcome where
  resp : Response
  db : DB
  trace : List Effect
  deriving DecidableEq, Repr

/-- The end of `CreateApp`, from the check of the download URL on; `req` is the
request after the auto-resolve step and `trace` the effects so far. -/
def createTail (env : Env) (db : DB) (userID : Int) (req : CreateAppRequest)
    (trace : List Effect) : Outcome :=
  if req.DownloadURL ≠ "" ∧ ¬ isValidURL env req.DownloadURL then
    ⟨.error 400 "Invalid download URL", db, trace⟩
  else
    let trace := trace ++ [.insert userID req.Name req.WingetID req.DownloadURL req.Args]
    match execInsert db userID req.Name req.WingetID req.DownloadURL req.Args with
    | .error _ => ⟨.error 500 "Failed to create app", db, trace⟩
    | .ok (appID, db) =>
      ⟨.app 201 ⟨appID, userID, req.Name, req.WingetID, req.DownloadURL, req.Args⟩, db, trace⟩

/-- The handler `CreateApp`; `body` is the decoded request body, `none` when
decoding fails. -/
def CreateApp (env : Env) (db : DB) (userID : Int) (body : Option CreateAppRequest) :
    Outcome :=
  match body with
  | none => ⟨.error 400 "Invalid request body", db, [.decodeBody]⟩
  | some req =>
    if TrimSpace req.Name = "" then
      ⟨.error 400 "App name is required", db, [.decodeBody]⟩
    else if TrimSpace req.WingetID = "" ∧ TrimSpace req.DownloadURL = "" then
      match ResolveWingetID env req.Name with
      | .ok id =>
        if id ≠ "" then
          createTail env db userID ⟨req.Name, id, req.DownloadURL, req.Args⟩
            [.decodeBody, .resolve req.Name]
        else
          ⟨.error 400 "Either winget_id or download_url is required (auto-resolve failed)", db,
            [.decodeBody, .resolve req.Name]⟩
      | .error _ =>
        ⟨.error 400 "Either winget_id or download_url is required (auto-resolve failed)", db,
          [.decodeBody, .resolve req.Name]⟩
    else createTail env db userID req [.decodeBody]

/-- The end of `UpdateApp`, after the ownership check. -/
def updateTail (env : Env) (db : DB) (userID appID : Int) (body : Option UpdateAppRequest)
    (trace : List Effect) : Outcome :=
  let trace := trace ++ [.decodeBody]
  match body with
  | none => ⟨.error 400 "Invalid request body", db, trace⟩
  | some req =>
    if TrimSpace req.Name = "" then
      ⟨.error 400 "App name is required", db, trace⟩
    else if TrimSpace req.WingetID = "" ∧ TrimSpace req.DownloadURL = "" then
      ⟨.error 400 "Either winget_id or download_url is required", db, trace⟩
    else if req.DownloadURL ≠ "" ∧ ¬ isValidURL env req.DownloadURL then
      ⟨.error 400 "Invalid download URL", db, trace⟩
    else
      let trace := trace ++ [.update appID req.Name req.WingetID req.DownloadURL req.Args]
      match execUpdate db req.Name req.WingetID req.DownloadURL req.Args appID with
      | .error _ => ⟨.error 500 "Failed to update app", db, trace⟩
      | .ok db =>
        ⟨.app 200 ⟨appID, userID, req.Name, req.WingetID, req.DownloadURL, req.Args⟩, db, trace⟩

/-- The handler `UpdateApp`; `pathID` is the result of `strconv.Atoi` on the
path value `id` (`none` when it fails) and `body` the decoded request body. -/
def UpdateApp (env : Env) (db : DB) (userID : Int) (pathID : Option Int)
    (body : Option UpdateAppRequest) : Outcome :=
  match pathID with
  | none => ⟨.error 400 "Invalid app ID", db, []⟩
  | some appID =>
    match queryOwner db appID with
    | .error .ErrNoRows => ⟨.error 404 "App not found", db, [.queryOwner appID]⟩
    | .error _ => ⟨.error 500 "Database error", db, [.queryOwner appID]⟩
    | .ok existingUserID =>
      if existingUserID ≠ userID then
        ⟨.error 403 "You can only update your own apps", db, [.queryOwner appID]⟩
      else updateTail env db userID appID body [.queryOwner appID]

/-- The handler `DeleteApp`. -/
def DeleteApp (db : DB) (userID : Int) (pathID : Option Int) : Outcome :=
  match pathID with
  | none => ⟨.error 400 "Invalid app ID", db, []⟩
  | some appID =>
    match queryOwner db appID with
    | .error .ErrNoRows => ⟨.error 404 "App not found", db, [.queryOwner appID]⟩
    | .error _ => ⟨.error 500 "Database error", db, [.queryOwner appID]⟩
    | .ok existingUserID =>
      if existingUserID ≠ userID then
        ⟨.error 403 "You can only delete your own apps", db, [.queryOwner appID]⟩
      else
        match execDelete db appID with
        | .error _ => ⟨.error 500 "Failed to delete app", db, [.queryOwner appID, .delete appID]⟩
        | .ok db => ⟨.empty 204, db, [.queryOwner appID, .delete appID]⟩

/-- The script the handler `GenerateScript` returns for the user, at the clock
reading `now`. -/
def GenerateScript (db : DB) (now : Clock) (userID : Int) : String :=
  script now (queryApps db userID)

/-! ## Vocabulary of the statements -/

/-- The fixed line of the branch without installer information. -/
def noInstallerLine : String :=
  "  Write-Host 'No installer info provided.' -ForegroundColor DarkYellow"

/-- Recogniser of the install lines: a call of one of the two helpers, or the
fixed line of the branch without installer information. -/
def isInstallLine (l : String) : Bool :=
  HasPrefix l "  Install-WingetApp " || HasPrefix l "  Install-FromUrl " || l = noInstallerLine

/-- The blocks of the rows in input order, numbered from `appCount + 1`. -/
def blocksFrom : Nat → List App → List String
  | _, [] => []
  | appCount, r :: rs => appBlock (appCount + 1) r ++ blocksFrom (appCount + 1) rs

/-- The effects that change the `apps` table. -/
def Effect.isWrite : Effect → Bool
  | .insert _ _ _ _ _ => true
  | .update _ _ _ _ _ => true
  | .delete _ => true
  | _ => false

/-- The effects that call the name resolver. -/
def Effect.isResolve : Effect → Bool
  | .resolve _ => true
  | _ => false

/-- An environment for the examples: `url.Parse` knows the two URLs
`http://example.com/x` and `https://example.com/setup.exe`, the package search
answers nothing. -/
def exampleEnv : Env where
  urlParse := fun u =>
    if u = "http://example.com/x" then some ⟨"http", "example.com"⟩
    else if u = "https://example.com/setup.exe" then some ⟨"https", "example.com"⟩
    else none
  httpGet := fun _ => none

/-- A table for the examples: one row, with id 1, owned by user 1. -/
def exampleDB : DB :=
  ⟨[⟨1, 1, "A", "Pkg.A", "", ""⟩], 1⟩

/-- An environment for the examples in which the package search finds the
package `Pkg.B` for every name; `url.Parse` is that of `exampleEnv`. -/
def resolvingEnv : Env where
  urlParse := exampleEnv.urlParse
  httpGet := fun _ => some ⟨200, some ["Pkg.B"]⟩

/-! ## Lemmas on strings -/

theorem readBody_cons_of_ne (c : Char) (l : List Char) (h : c ≠ '\'') :
    readBody (c :: l) = (readBody l).map (fun p => (c :: p.1, p.2)) := by
  cases l <;> simp [readBody, h]

theorem readBody_quote_quote (l : List Char) :
    readBody ('\'' :: '\'' :: l) = (readBody l).map (fun p => ('\'' :: p.1, p.2)) := by
  simp [readBody]

theorem readBody_escape (s : List Char) :
    readBody (replaceAux ['\''] ['\'', '\''] 0 s ++ ['\'']) = some (s, []) := by
  induction s with
  | nil => simp [replaceAux, readBody]
  | cons c cs ih =>
    by_cases h : c = '\''
    · subst h
      simp [replaceAux, readBody_quote_quote, ih]
    · have h2 : ¬ ('\'' = c) := fun e => h e.symm
      simp [replaceAux, readBody_cons_of_ne _ _ h, ih, h2]

/-! ## The quoting closure -/

/-- C1. For every string `s`, `psSingle s` is one complete single-quoted
literal that decodes to `s`: reading it consumes the opening quote, turns each
doubled quote into one quote, stops at the first quote that is not doubled, and
then nothing is left over and the decoded text is exactly `s`; for the empty
string the literal is two quote characters. -/
theorem psSingle_roundtrip (s : String) :
    readLiteral (psSingle s) = some (s, "") ∧ psSingle "" = "''" := by
  refine ⟨?_, by decide⟩
  simp [readLiteral, psSingle, ReplaceAll, readBody_escape]

/-- C2. For the row named `O'Brien` the block embeds the name unchanged in the
`Installing` and the `Finished:` literal, so that the `Installing` literal ends
after `Installing O`; only the `Failed:` literal of the catch line has the quote
doubled. -/
theorem appBlock_raw_name_in_literals :
    appBlock 1 ⟨1, 1, "O'Brien", "Foo.Bar", "", ""⟩ =
      ["# App 1: O'Brien",
       "Write-Host 'Installing O'Brien...' -ForegroundColor Yellow",
       "try \x7b",
       "  Install-WingetApp 'Foo.Bar' ''",
       "  Write-Host 'Finished: O'Brien' -ForegroundColor Green",
       "\x7d catch \x7b Write-Host ('Failed: ' + 'O''Brien' + ' - ' + $_.Exception.Message) -ForegroundColor Red \x7d",
       ""] ∧
    readLiteral "'Installing O'Brien...' -ForegroundColor Yellow" =
      some ("Installing O", "Brien...' -ForegroundColor Yellow") ∧
    readLiteral "'Finished: O'Brien' -ForegroundColor Green" =
      some ("Finished: O", "Brien' -ForegroundColor Green") := by
  decide

theorem isInstallLine_installLine (r : App) : isInstallLine (installLine r) = true := by
  unfold installLine
  split_ifs <;> simp [isInstallLine, HasPrefix, List.isPrefixOf, noInstallerLine]

theorem appBlock_install_line (appCount : Nat) (r : App) :
    (appBlock appCount r).filter isInstallLine = [installLine r] ∧
    (appBlock appCount r).get? 3 = some (installLine r) ∧
    (r.WingetID ≠ "" → installLine r =
      "  Install-WingetApp " ++ psSingle r.WingetID ++ " " ++ psSingle r.Args) ∧
    (r.WingetID = "" → r.DownloadURL ≠ "" → installLine r =
      "  Install-FromUrl " ++ psSingle r.DownloadURL ++ " " ++ psSingle r.Args) ∧
    (r.WingetID = "" → r.DownloadURL = "" → installLine r =
      "  Write-Host 'No installer info provided.' -ForegroundColor DarkYellow") ∧
    (r.WingetID = "Foo.Bar" → r.Args = "" → installLine r = "  Install-WingetApp 'Foo.Bar' ''") := by
  refine ⟨?_, rfl, ?_, ?_, ?_, ?_⟩
  · have h := isInstallLine_installLine r
    have h0 : ∀ x : String, isInstallLine ("# App " ++ x) = false := by
      intro x; simp [isInstallLine, HasPrefix, List.isPrefixOf, noInstallerLine, String.ext_iff]
    have h1 : ∀ x : String, isInstallLine ("Write-Host 'Installing " ++ x) = false := by
      intro x; simp [isInstallLine, HasPrefix, List.isPrefixOf, noInstallerLine, String.ext_iff]
    have h2 : isInstallLine "try \x7b" = false := by decide
    have h4 : ∀ x : String, isInstallLine ("  Write-Host 'Finished: " ++ x) = false := by
      intro x; simp [isInstallLine, HasPrefix, List.isPrefixOf, noInstallerLine, String.ext_iff]
    have h5 : ∀ x : String,
        isInstallLine ("\x7d catch \x7b Write-Host ('Failed: ' + '" ++ x) = false := by
      intro x; simp [isInstallLine, HasPrefix, List.isPrefixOf, noInstallerLine, String.ext_iff]
    have h6 : isInstallLine "" = false := by decide
    simp only [appBlock, String.append_assoc, List.filter, h, h0, h1, h2, h4, h5, h6]
  · intro h; simp [installLine, h]
  · intro h1 h2; simp [installLine, h1, h2]
  · intro h1 h2; simp [installLine, h1, h2]
  · intro h1 h2
    have h3 : r.WingetID ≠ "" := by rw [h1]; decide
    rw [installLine, if_pos h3, h1, h2]
    decide

/-! ## Lemmas on lines -/

theorem splitNL_ne_nil (l : List Char) : splitNL l ≠ [] := by
  cases l with
  | nil => simp [splitNL]
  | cons c cs =>
    simp only [splitNL]
    split
    · simp
    · split <;> simp

theorem splitNL_cons_nl (l : List Char) : splitNL ('\n' :: l) = [] :: splitNL l := by
  have h := splitNL_ne_nil l
  simp only [splitNL]
  split
  · contradiction
  · next heq => simp [heq]

theorem splitNL_cons_of_ne (c : Char) (l : List Char) (h : c ≠ '\n') :
    splitNL (c :: l) = (c :: (splitNL l).headD []) :: (splitNL l).tail := by
  have h0 := splitNL_ne_nil l
  simp only [splitNL]
  split
  · contradiction
  · next heq => simp [heq, h]

theorem splitNL_append (a b : List Char) :
    splitNL (a ++ '\n' :: b) = splitNL a ++ splitNL b := by
  induction a with
  | nil => rw [List.nil_append, splitNL_cons_nl]; simp [splitNL]
  | cons c cs ih =>
    by_cases h : c = '\n'
    · subst h
      simp [splitNL_cons_nl, ih]
    · have h0 := splitNL_ne_nil cs
      rw [List.cons_append, splitNL_cons_of_ne _ _ h, splitNL_cons_of_ne _ _ h, ih]
      cases hs : splitNL cs with
      | nil => exact absurd hs h0
      | cons x xs => simp

theorem splitNL_of_not_mem (a : List Char) (h : '\n' ∉ a) : splitNL a = [a] := by
  induction a with
  | nil => simp [splitNL]
  | cons c cs ih =>
    simp only [List.mem_cons, not_or] at h
    rw [splitNL_cons_of_ne _ _ (fun e => h.1 e.symm), ih h.2]
    simp

theorem textLines_of_not_mem (s : String) (h : '\n' ∉ s.data) : textLines s = [s] := by
  simp [textLines, splitNL_of_not_mem _ h]

theorem textLines_Join (a : String) (ls : List String) :
    textLines (Join (a :: ls) "\n") = textLines a ++ ls.flatMap textLines := by
  induction ls generalizing a with
  | nil => simp [Join]
  | cons b rest ih =>
    have h : (Join (a :: b :: rest) "\n").data = a.data ++ '\n' :: (Join (b :: rest) "\n").data := by
      simp [Join]
    have ih2 := ih b
    simp only [textLines] at ih2 ⊢
    rw [h, splitNL_append, List.map_append, ih2]
    simp [textLines]

theorem flatMap_textLines_of_not_mem (ms : List String) (h : ∀ l ∈ ms, '\n' ∉ l.data) :
    ms.flatMap textLines = ms := by
  induction ms with
  | nil => simp
  | cons m ms ihm =>
    rw [List.flatMap_cons, textLines_of_not_mem m (h m (List.mem_cons_self _ _)),
      ihm (fun l hl => h l (List.mem_cons_of_mem _ hl))]
    rfl

theorem textLines_Join_of_not_mem (a : String) (ls : List String)
    (h : ∀ l ∈ a :: ls, '\n' ∉ l.data) : textLines (Join (a :: ls) "\n") = a :: ls := by
  rw [textLines_Join, textLines_of_not_mem a (h a (List.mem_cons_self _ _)),
    flatMap_textLines_of_not_mem ls (fun l hl => h l (List.mem_cons_of_mem _ hl))]
  rfl

/-! ## Line feeds in the emitted lines -/

theorem digitChar_ne_nl : ∀ d : Nat, d < 10 → Nat.digitChar d ≠ '\n' := by
  decide

theorem toDigitsCore_not_mem (fuel n : Nat) (ds : List Char) (h : '\n' ∉ ds) :
    '\n' ∉ Nat.toDigitsCore 10 fuel n ds := by
  induction fuel generalizing n ds with
  | zero => simpa [Nat.toDigitsCore] using h
  | succ k ih =>
    have hd : '\n' ∉ Nat.digitChar (n % 10) :: ds := by
      simp only [List.mem_cons, not_or]
      exact ⟨fun e => digitChar_ne_nl _ (Nat.mod_lt _ (by decide)) e.symm, h⟩
    simp only [Nat.toDigitsCore]
    split_ifs
    · exact hd
    · exact ih _ _ hd

theorem repr_not_mem (n : Nat) : '\n' ∉ (Nat.repr n).data := by
  simp only [Nat.repr, Nat.toDigits, List.asString]
  exact toDigitsCore_not_mem _ _ _ (by simp)

theorem appendInt_not_mem (x width : Nat) : '\n' ∉ (appendInt x width).data := by
  have h := repr_not_mem x
  simp only [appendInt, String.data_append, List.mem_append, not_or]
  refine ⟨?_, h⟩
  intro hm
  have := List.eq_of_mem_replicate hm
  exact absurd this (by decide)

theorem formatStamp_not_mem (now : Clock) : '\n' ∉ (formatStamp now).data := by
  simp only [formatStamp, String.data_append, List.mem_append, not_or]
  refine ⟨⟨⟨⟨⟨⟨⟨⟨⟨⟨?_, ?_⟩, ?_⟩, ?_⟩, ?_⟩, ?_⟩, ?_⟩, ?_⟩, ?_⟩, ?_⟩, ?_⟩ <;>
    first
    | exact appendInt_not_mem _ _
    | decide

theorem escape_not_mem (s : List Char) (h : '\n' ∉ s) :
    '\n' ∉ replaceAux ['\''] ['\'', '\''] 0 s := by
  induction s with
  | nil => simp [replaceAux]
  | cons c cs ih =>
    simp only [List.mem_cons, not_or] at h
    have ih2 := ih h.2
    by_cases hc : c = '\''
    · subst hc
      simpa [replaceAux] using ih2
    · have h2 : ¬ ('\'' = c) := fun e => hc e.symm
      have h3 : ¬ ('\n' = c) := h.1
      simpa [replaceAux, h2, h3] using ih2

theorem psSingle_not_mem (s : String) (h : '\n' ∉ s.data) : '\n' ∉ (psSingle s).data := by
  have := escape_not_mem s.data h
  simpa [psSingle, ReplaceAll] using this

theorem appName_not_mem (r : App) (h : '\n' ∉ r.Name.data) : '\n' ∉ (appName r).data := by
  unfold appName
  split_ifs
  · decide
  · exact h

theorem installLine_not_mem (r : App) (h1 : '\n' ∉ r.WingetID.data)
    (h2 : '\n' ∉ r.DownloadURL.data) (h3 : '\n' ∉ r.Args.data) :
    '\n' ∉ (installLine r).data := by
  have a1 := psSingle_not_mem _ h1
  have a2 := psSingle_not_mem _ h2
  have a3 := psSingle_not_mem _ h3
  unfold installLine
  split_ifs
  · simp [a1, a3]
  · simp [a2, a3]
  · decide

theorem appBlock_not_mem (appCount : Nat) (r : App) (h0 : '\n' ∉ r.Name.data)
    (h1 : '\n' ∉ r.WingetID.data) (h2 : '\n' ∉ r.DownloadURL.data) (h3 : '\n' ∉ r.Args.data) :
    ∀ l ∈ appBlock appCount r, '\n' ∉ l.data := by
  have a0 := appName_not_mem r h0
  have a1 := installLine_not_mem r h1 h2 h3
  have a2 := escape_not_mem _ a0
  have a3 : '\n' ∉ (toString appCount).data := repr_not_mem appCount
  intro l hl
  simp only [appBlock, List.mem_cons, List.mem_singleton, List.not_mem_nil, or_false] at hl
  rcases hl with rfl | rfl | rfl | rfl | rfl | rfl | rfl
  · simp [a0, a3]
  · simp [a0]
  · decide
  · exact a1
  · simp [a0]
  · simp [ReplaceAll, a2]
  · decide

theorem preamble_not_mem (now : Clock) : ∀ l ∈ preamble now, '\n' ∉ l.data := by
  have hs := formatStamp_not_mem now
  unfold preamble
  rw [List.forall_mem_cons, List.forall_mem_cons]
  refine ⟨by decide, ?_, by decide⟩
  simp [hs]

theorem footer_not_mem (appCount : Nat) : '\n' ∉ (footer appCount).data := by
  unfold footer
  split_ifs <;> decide

/-! ## The shape of `scriptLines` -/

theorem appLoop_eq (appCount : Nat) (lines : List String) (rows : List App) :
    appLoop appCount lines rows = (appCount + rows.length, lines ++ blocksFrom appCount rows) := by
  induction rows generalizing appCount lines with
  | nil => simp [appLoop, blocksFrom]
  | cons r rs ih =>
    simp only [appLoop, blocksFrom, ih, List.length_cons, List.append_assoc]
    congr 1
    omega

theorem scriptLines_eq (now : Clock) (rows : List App) :
    scriptLines now rows = preamble now ++ blocksFrom 0 rows ++ [footer rows.length] := by
  simp [scriptLines, appLoop_eq]

theorem blocksFrom_not_mem (appCount : Nat) (rows : List App)
    (h : ∀ r ∈ rows, '\n' ∉ r.Name.data ∧ '\n' ∉ r.WingetID.data ∧
      '\n' ∉ r.DownloadURL.data ∧ '\n' ∉ r.Args.data) :
    ∀ l ∈ blocksFrom appCount rows, '\n' ∉ l.data := by
  induction rows generalizing appCount with
  | nil => simp [blocksFrom]
  | cons r rs ih =>
    intro l hl
    rw [blocksFrom, List.mem_append] at hl
    have hr := h r (List.mem_cons_self _ _)
    rcases hl with hl | hl
    · exact appBlock_not_mem _ r hr.1 hr.2.1 hr.2.2.1 hr.2.2.2 l hl
    · exact ih _ (fun x hx => h x (List.mem_cons_of_mem _ hx)) l hl

theorem scriptLines_not_mem (now : Clock) (rows : List App)
    (h : ∀ r ∈ rows, '\n' ∉ r.Name.data ∧ '\n' ∉ r.WingetID.data ∧
      '\n' ∉ r.DownloadURL.data ∧ '\n' ∉ r.Args.data) :
    ∀ l ∈ scriptLines now rows, '\n' ∉ l.data := by
  intro l hl
  rw [scriptLines_eq, List.mem_append, List.mem_append] at hl
  rcases hl with (hl | hl) | hl
  · exact preamble_not_mem now l hl
  · exact blocksFrom_not_mem 0 rows h l hl
  · rw [List.mem_singleton] at hl
    subst hl
    exact footer_not_mem _

theorem scriptLines_ne_nil (now : Clock) (rows : List App) : scriptLines now rows ≠ [] := by
  rw [scriptLines_eq]
  simp

theorem textLines_script (now : Clock) (rows : List App) :
    textLines (script now rows) = (scriptLines now rows).flatMap textLines := by
  unfold script
  cases h : scriptLines now rows with
  | nil => exact absurd h (scriptLines_ne_nil now rows)
  | cons a ls => rw [textLines_Join, List.flatMap_cons]

theorem textLines_script_of_not_mem (now : Clock) (rows : List App)
    (h : ∀ r ∈ rows, '\n' ∉ r.Name.data ∧ '\n' ∉ r.WingetID.data ∧
      '\n' ∉ r.DownloadURL.data ∧ '\n' ∉ r.Args.data) :
    textLines (script now rows) = scriptLines now rows := by
  have hn := scriptLines_not_mem now rows h
  unfold script
  cases hs : scriptLines now rows with
  | nil => exact absurd hs (scriptLines_ne_nil now rows)
  | cons a ls =>
    rw [hs] at hn
    exact textLines_Join_of_not_mem a ls hn

/-! ## The numbered comment lines -/

theorem appBlock_filter_app (appCount : Nat) (r : App) :
    (appBlock appCount r).filter (fun l => HasPrefix l "# App ") =
      ["# App " ++ toString appCount ++ ": " ++ appName r] := by
  have h0 : ∀ x : String, HasPrefix ("# App " ++ x) "# App " = true := by
    intro x; simp [HasPrefix, List.isPrefixOf]
  have h1 : ∀ x : String, HasPrefix ("Write-Host 'Installing " ++ x) "# App " = false := by
    intro x; simp [HasPrefix, List.isPrefixOf]
  have h2 : HasPrefix "try \x7b" "# App " = false := by decide
  have h3 : HasPrefix (installLine r) "# App " = false := by
    unfold installLine
    split_ifs <;> simp [HasPrefix, List.isPrefixOf]
  have h4 : ∀ x : String, HasPrefix ("  Write-Host 'Finished: " ++ x) "# App " = false := by
    intro x; simp [HasPrefix, List.isPrefixOf]
  have h5 : ∀ x : String,
      HasPrefix ("\x7d catch \x7b Write-Host ('Failed: ' + '" ++ x) "# App " = false := by
    intro x; simp [HasPrefix, List.isPrefixOf]
  have h6 : HasPrefix "" "# App " = false := by decide
  simp only [appBlock, String.append_assoc, List.filter, h0, h1, h2, h3, h4, h5, h6]

theorem blocksFrom_filter_app (appCount : Nat) (rows : List App) :
    (blocksFrom appCount rows).filter (fun l => HasPrefix l "# App ") =
      (rows.enumFrom (appCount + 1)).map
        (fun p => "# App " ++ toString p.1 ++ ": " ++ appName p.2) := by
  induction rows generalizing appCount with
  | nil => simp [blocksFrom]
  | cons r rs ih =>
    rw [blocksFrom, List.filter_append, appBlock_filter_app, ih]
    simp [List.enumFrom]

theorem preamble_filter_app (now : Clock) :
    (preamble now).filter (fun l => HasPrefix l "# App ") = [] := by
  rw [List.filter_eq_nil_iff]
  unfold preamble
  rw [List.forall_mem_cons, List.forall_mem_cons]
  refine ⟨by decide, ?_, by decide⟩
  simp [HasPrefix, List.isPrefixOf]

theorem footer_filter_app (appCount : Nat) :
    [footer appCount].filter (fun l => HasPrefix l "# App ") = [] := by
  unfold footer
  split_ifs <;> decide

theorem scriptLines_filter_app (now : Clock) (rows : List App) :
    (scriptLines now rows).filter (fun l => HasPrefix l "# App ") =
      (rows.enumFrom 1).map (fun p => "# App " ++ toString p.1 ++ ": " ++ appName p.2) := by
  rw [scriptLines_eq, List.filter_append, List.filter_append, preamble_filter_app,
    footer_filter_app, blocksFrom_filter_app]
  simp

theorem textLines_script_blocks (now : Clock) (rows : List App) :
    textLines (script now rows) =
      preamble now ++ (blocksFrom 0 rows).flatMap textLines ++ [footer rows.length] := by
  rw [textLines_script, scriptLines_eq, List.flatMap_append, List.flatMap_append,
    flatMap_textLines_of_not_mem _ (preamble_not_mem now)]
  simp [textLines_of_not_mem _ (footer_not_mem _)]

theorem script_filter_app (now : Clock) (rows : List App) :
    (textLines (script now rows)).filter (fun l => HasPrefix l "# App ") =
      ((blocksFrom 0 rows).flatMap textLines).filter (fun l => HasPrefix l "# App ") := by
  rw [textLines_script_blocks, List.filter_append, List.filter_append, preamble_filter_app,
    footer_filter_app]
  simp

/-- C4, as amended. For rows whose name, package id, download URL and arguments
contain no line feed, the lines of the script that begin with `# App ` are
exactly, in input order, `# App k: ` followed by the display name of row `k`,
for `k` from 1 to the number of rows, the display name being the row's name or
`Unknown App` when the name is empty; the row's id plays no part. -/
theorem script_numbered_lines (now : Clock) (rows : List App)
    (h : ∀ r ∈ rows, '\n' ∉ r.Name.data ∧ '\n' ∉ r.WingetID.data ∧
      '\n' ∉ r.DownloadURL.data ∧ '\n' ∉ r.Args.data) :
    (textLines (script now rows)).filter (fun l => HasPrefix l "# App ") =
      (rows.enumFrom 1).map (fun p =>
        "# App " ++ toString p.1 ++ ": " ++ (if p.2.Name = "" then "Unknown App" else p.2.Name)) := by
  rw [textLines_script_of_not_mem now rows h, scriptLines_filter_app]
  rfl

/-- Witness of C4 as amended, at two rows `A` and `B` with unrelated ids. -/
theorem script_numbered_lines_witness :
    (textLines (script ⟨2024, 3, 5, 7, 8, 9⟩
        [⟨42, 1, "A", "Pkg.A", "", ""⟩, ⟨7, 1, "B", "", "https://example.com/b.exe", "/S"⟩])).filter
      (fun l => HasPrefix l "# App ") = ["# App 1: A", "# App 2: B"] := by
  rw [script_numbered_lines _ _ (by decide)]
  decide

/-- C4, the claim as stated fails. One row whose name holds a line feed
followed by `# App 2: B` gives a script with five lines that begin with
`# App `, not the one line `# App 1: ` followed by the row's name. -/
theorem script_numbered_lines_counterexample :
    (textLines (script ⟨2024, 3, 5, 7, 8, 9⟩ [⟨1, 1, "A\n# App 2: B", "Pkg.A", "", ""⟩])).filter
      (fun l => HasPrefix l "# App ") =
      ["# App 1: A", "# App 2: B", "# App 2: B...' -ForegroundColor Yellow",
       "# App 2: B' -ForegroundColor Green",
       "# App 2: B' + ' - ' + $_.Exception.Message) -ForegroundColor Red \x7d"] ∧
    (textLines (script ⟨2024, 3, 5, 7, 8, 9⟩ [⟨1, 1, "A\n# App 2: B", "Pkg.A", "", ""⟩])).filter
      (fun l => HasPrefix l "# App ") ≠
      ([(⟨1, 1, "A\n# App 2: B", "Pkg.A", "", ""⟩ : App)].enumFrom 1).map (fun p =>
        "# App " ++ toString p.1 ++ ": " ++ (if p.2.Name = "" then "Unknown App" else p.2.Name)) := by
  rw [script_filter_app]
  decide

/-! ## Footer and layout -/

theorem textLines_script_getLast (now : Clock) (rows : List App) :
    (textLines (script now rows)).getLast? = some (footer rows.length) := by
  rw [textLines_script_blocks]
  simp

/-- C5. The footer follows the number of rows alone. For no rows the last line
of the script is the `No applications to install.` notice, and no line of the
script begins a numbered block, opens a `try` or starts a `catch`. For one row
or more the last line is the `Installation complete!` notice, hence not the
`No applications to install.` notice. -/
theorem script_footer (now : Clock) (r : App) (rs : List App) :
    (textLines (script now [])).getLast? =
      some "Write-Host \"No applications to install.\" -ForegroundColor Yellow" ∧
    (∀ l ∈ textLines (script now []),
      HasPrefix l "# App " = false ∧ l ≠ "try \x7b" ∧ HasPrefix l "\x7d catch" = false) ∧
    (textLines (script now (r :: rs))).getLast? =
      some "Write-Host \"Installation complete!\" -ForegroundColor Green" ∧
    (textLines (script now (r :: rs))).getLast? ≠
      some "Write-Host \"No applications to install.\" -ForegroundColor Yellow" := by
  have h1 : (textLines (script now (r :: rs))).getLast? =
      some "Write-Host \"Installation complete!\" -ForegroundColor Green" := by
    rw [textLines_script_getLast]
    simp [footer]
  refine ⟨?_, ?_, h1, ?_⟩
  · rw [textLines_script_getLast]
    rfl
  · rw [textLines_script_blocks]
    simp only [blocksFrom, List.flatMap_nil, List.append_nil, List.length_nil, footer, if_true]
    unfold preamble
    simp only [List.cons_append, List.nil_append]
    rw [List.forall_mem_cons, List.forall_mem_cons]
    refine ⟨by decide, ⟨?_, ?_, ?_⟩, by decide⟩
    · simp [HasPrefix, List.isPrefixOf]
    · intro h
      have hd := congrArg String.data h
      simp at hd
    · simp [HasPrefix, List.isPrefixOf]
  · rw [h1]
    decide

theorem appBlock_not_function (appCount : Nat) (r : App) (rest : List Char) :
    ∀ l ∈ appBlock appCount r, List.isPrefixOf ('f' :: rest) l.data = false := by
  have h3 : List.isPrefixOf ('f' :: rest) (installLine r).data = false := by
    unfold installLine
    split_ifs <;> simp [List.isPrefixOf]
  intro l hl
  simp only [appBlock, List.mem_cons, List.mem_singleton, List.not_mem_nil, or_false] at hl
  rcases hl with rfl | rfl | rfl | rfl | rfl | rfl | rfl
  · simp [List.isPrefixOf]
  · simp [List.isPrefixOf]
  · simp [List.isPrefixOf]
  · exact h3
  · simp [List.isPrefixOf]
  · simp [List.isPrefixOf]
  · simp [List.isPrefixOf]

theorem blocksFrom_not_function (appCount : Nat) (rows : List App) (rest : List Char) :
    ∀ l ∈ blocksFrom appCount rows, List.isPrefixOf ('f' :: rest) l.data = false := by
  induction rows generalizing appCount with
  | nil => simp [blocksFrom]
  | cons r rs ih =>
    intro l hl
    rw [blocksFrom, List.mem_append] at hl
    rcases hl with hl | hl
    · exact appBlock_not_function _ r rest l hl
    · exact ih _ l hl

theorem blocksFrom_eq_flatMap (appCount : Nat) (rows : List App) :
    blocksFrom appCount rows =
      (rows.enumFrom (appCount + 1)).flatMap (fun p => appBlock p.1 p.2) := by
  induction rows generalizing appCount with
  | nil => simp [blocksFrom]
  | cons r rs ih => simp [blocksFrom, List.enumFrom, ih]

theorem scriptLines_filter_winget (now : Clock) (rows : List App) :
    (scriptLines now rows).filter (fun l => HasPrefix l "function Install-WingetApp ") =
      ["function Install-WingetApp \x7b param([string]$Id, [string]$Args)"] := by
  have hb : (blocksFrom 0 rows).filter (fun l => HasPrefix l "function Install-WingetApp ") = [] := by
    rw [List.filter_eq_nil_iff]
    intro l hl
    have h2 : HasPrefix l "function Install-WingetApp " = false :=
      blocksFrom_not_function 0 rows "unction Install-WingetApp ".data l hl
    simp [h2]
  have hf : [footer rows.length].filter (fun l => HasPrefix l "function Install-WingetApp ") = [] := by
    unfold footer
    split_ifs <;> decide
  have hp : (preamble now).filter (fun l => HasPrefix l "function Install-WingetApp ") =
      ["function Install-WingetApp \x7b param([string]$Id, [string]$Args)"] := by
    have h0 : ∀ x : String, HasPrefix ("# Generated on: " ++ x) "function Install-WingetApp " = false := by
      intro x; simp [HasPrefix, List.isPrefixOf]
    have h1 : ¬ ((fun l => HasPrefix l "function Install-WingetApp ")
        ("# Generated on: " ++ formatStamp now) = true) := by
      show ¬ (HasPrefix ("# Generated on: " ++ formatStamp now) "function Install-WingetApp " = true)
      rw [h0]; decide
    unfold preamble
    rw [List.filter_cons_of_neg (by decide),
      @List.filter_cons_of_neg _ (fun l => HasPrefix l "function Install-WingetApp ") _ _ h1]
    decide
  rw [scriptLines_eq, List.filter_append, List.filter_append, hb, hf, hp]
  rfl

theorem scriptLines_filter_fromUrl (now : Clock) (rows : List App) :
    (scriptLines now rows).filter (fun l => HasPrefix l "function Install-FromUrl ") =
      ["function Install-FromUrl \x7b param([string]$Url, [string]$Args)"] := by
  have hb : (blocksFrom 0 rows).filter (fun l => HasPrefix l "function Install-FromUrl ") = [] := by
    rw [List.filter_eq_nil_iff]
    intro l hl
    have h2 : HasPrefix l "function Install-FromUrl " = false :=
      blocksFrom_not_function 0 rows "unction Install-FromUrl ".data l hl
    simp [h2]
  have hf : [footer rows.length].filter (fun l => HasPrefix l "function Install-FromUrl ") = [] := by
    unfold footer
    split_ifs <;> decide
  have hp : (preamble now).filter (fun l => HasPrefix l "function Install-FromUrl ") =
      ["function Install-FromUrl \x7b param([string]$Url, [string]$Args)"] := by
    have h0 : ∀ x : String, HasPrefix ("# Generated on: " ++ x) "function Install-FromUrl " = false := by
      intro x; simp [HasPrefix, List.isPrefixOf]
    have h1 : ¬ ((fun l => HasPrefix l "function Install-FromUrl ")
        ("# Generated on: " ++ formatStamp now) = true) := by
      show ¬ (HasPrefix ("# Generated on: " ++ formatStamp now) "function Install-FromUrl " = true)
      rw [h0]; decide
    unfold preamble
    rw [List.filter_cons_of_neg (by decide),
      @List.filter_cons_of_neg _ (fun l => HasPrefix l "function Install-FromUrl ") _ _ h1]
    decide
  rw [scriptLines_eq, List.filter_append, List.filter_append, hb, hf, hp]
  rfl

/-! ## Positions of the lines of a block -/

theorem blocksFrom_length (appCount : Nat) (rows : List App) :
    (blocksFrom appCount rows).length = 7 * rows.length := by
  induction rows generalizing appCount with
  | nil => rfl
  | cons r rs ih =>
    rw [blocksFrom, List.length_append, ih, List.length_cons]
    have : (appBlock (appCount + 1) r).length = 7 := rfl
    omega

theorem blocksFrom_getElem? (appCount : Nat) (rows : List App) (i k : Nat) (hk : k < 7) :
    (blocksFrom appCount rows)[7 * i + k]? =
      (rows[i]?).bind (fun r => (appBlock (appCount + i + 1) r)[k]?) := by
  induction rows generalizing appCount i with
  | nil => simp [blocksFrom]
  | cons r rs ih =>
    have hlen : (appBlock (appCount + 1) r).length = 7 := rfl
    cases i with
    | zero =>
      rw [blocksFrom, List.getElem?_append_left (by omega)]
      simp
    | succ i =>
      rw [blocksFrom, List.getElem?_append_right (by omega), hlen]
      have e : 7 * (i + 1) + k - 7 = 7 * i + k := by omega
      rw [e, ih (appCount + 1) i]
      have e2 : appCount + 1 + i + 1 = appCount + (i + 1) + 1 := by omega
      rw [e2]
      simp

theorem appBlock_install_index (appCount : Nat) (r : App) (k : Nat) (l : String)
    (h : (appBlock appCount r)[k]? = some l) (hl : isInstallLine l = true) : k = 3 := by
  have h0 : ∀ x : String, isInstallLine ("# App " ++ x) = false := by
    intro x; simp [isInstallLine, HasPrefix, List.isPrefixOf, noInstallerLine, String.ext_iff]
  have h1 : ∀ x : String, isInstallLine ("Write-Host 'Installing " ++ x) = false := by
    intro x; simp [isInstallLine, HasPrefix, List.isPrefixOf, noInstallerLine, String.ext_iff]
  have h2 : isInstallLine "try \x7b" = false := by decide
  have h4 : ∀ x : String, isInstallLine ("  Write-Host 'Finished: " ++ x) = false := by
    intro x; simp [isInstallLine, HasPrefix, List.isPrefixOf, noInstallerLine, String.ext_iff]
  have h5 : ∀ x : String,
      isInstallLine ("\x7d catch \x7b Write-Host ('Failed: ' + '" ++ x) = false := by
    intro x; simp [isInstallLine, HasPrefix, List.isPrefixOf, noInstallerLine, String.ext_iff]
  have h6 : isInstallLine "" = false := by decide
  match k with
  | 0 =>
    simp only [appBlock, String.append_assoc, List.getElem?_cons_zero, Option.some.injEq] at h
    rw [← h, h0] at hl; exact absurd hl (by decide)
  | 1 =>
    simp only [appBlock, String.append_assoc, List.getElem?_cons_zero, List.getElem?_cons_succ,
      Option.some.injEq] at h
    rw [← h, h1] at hl; exact absurd hl (by decide)
  | 2 =>
    simp only [appBlock, List.getElem?_cons_zero, List.getElem?_cons_succ,
      Option.some.injEq] at h
    rw [← h, h2] at hl; exact absurd hl (by decide)
  | 3 => rfl
  | 4 =>
    simp only [appBlock, String.append_assoc, List.getElem?_cons_zero, List.getElem?_cons_succ,
      Option.some.injEq] at h
    rw [← h, h4] at hl; exact absurd hl (by decide)
  | 5 =>
    simp only [appBlock, String.append_assoc, List.getElem?_cons_zero, List.getElem?_cons_succ,
      Option.some.injEq] at h
    rw [← h, h5] at hl; exact absurd hl (by decide)
  | 6 =>
    simp only [appBlock, List.getElem?_cons_zero, List.getElem?_cons_succ,
      Option.some.injEq] at h
    rw [← h, h6] at hl; exact absurd hl (by decide)
  | n + 7 =>
    have : (appBlock appCount r).length = 7 := rfl
    have hn := (List.getElem?_eq_some_iff.mp h).1
    omega

theorem preamble_not_install (now : Clock) : ∀ l ∈ preamble now, isInstallLine l = false := by
  have h0 : ∀ x : String, isInstallLine ("# Generated on: " ++ x) = false := by
    intro x; simp [isInstallLine, HasPrefix, List.isPrefixOf, noInstallerLine, String.ext_iff]
  unfold preamble
  rw [List.forall_mem_cons, List.forall_mem_cons]
  exact ⟨by decide, h0 _, by decide⟩

theorem footer_not_install (appCount : Nat) : isInstallLine (footer appCount) = false := by
  unfold footer
  split_ifs <;> decide

theorem scriptLines_getElem?_block (now : Clock) (rows : List App) (i k : Nat) (r : App)
    (hk : k < 7) (hr : rows[i]? = some r) :
    (scriptLines now rows)[28 + 7 * i + k]? = (appBlock (i + 1) r)[k]? := by
  have hp : (preamble now).length = 28 := rfl
  have hi : i < rows.length := (List.getElem?_eq_some_iff.mp hr).1
  have hlen := blocksFrom_length 0 rows
  rw [scriptLines_eq, List.append_assoc, List.getElem?_append_right (by omega), hp,
    List.getElem?_append_left (by omega)]
  have e : 28 + 7 * i + k - 28 = 7 * i + k := by omega
  rw [e, blocksFrom_getElem? 0 rows i k hk, hr]
  simp

theorem scriptLines_install_index (now : Clock) (rows : List App) (j : Nat) (l : String)
    (h : (scriptLines now rows)[j]? = some l) (hl : isInstallLine l = true) :
    ∃ k, k < rows.length ∧ j = 28 + 7 * k + 3 := by
  have hp : (preamble now).length = 28 := rfl
  have hlen := blocksFrom_length 0 rows
  by_cases h1 : j < 28
  · rw [scriptLines_eq, List.append_assoc, List.getElem?_append_left (by omega)] at h
    have := preamble_not_install now l (List.getElem?_mem h)
    rw [this] at hl
    exact absurd hl (by decide)
  · by_cases h2 : j - 28 < 7 * rows.length
    · have hi : (j - 28) / 7 < rows.length := by omega
      have hk : (j - 28) % 7 < 7 := Nat.mod_lt _ (by decide)
      have hj : j = 28 + 7 * ((j - 28) / 7) + (j - 28) % 7 := by omega
      obtain ⟨r, hr⟩ : ∃ r, rows[(j - 28) / 7]? = some r :=
        ⟨rows[(j - 28) / 7], List.getElem?_eq_getElem hi⟩
      rw [hj, scriptLines_getElem?_block now rows _ _ r hk hr] at h
      have h3 := appBlock_install_index _ r _ l h hl
      exact ⟨(j - 28) / 7, hi, by omega⟩
    · rw [scriptLines_eq, List.getElem?_append_right (by simp; omega)] at h
      have hm := List.getElem?_mem h
      rw [List.mem_singleton] at hm
      rw [hm, footer_not_install] at hl
      exact absurd hl (by decide)

theorem scriptLines_length (now : Clock) (rows : List App) :
    (scriptLines now rows).length = 28 + 7 * rows.length + 1 := by
  have hp : (preamble now).length = 28 := rfl
  rw [scriptLines_eq, List.length_append, List.length_append, blocksFrom_length, hp]
  rfl

theorem block_try_catch (now : Clock) (rows : List App) (i : Nat) (r : App)
    (h : rows[i]? = some r) :
    (scriptLines now rows)[28 + 7 * i + 2]? = some "try \x7b" ∧
    (scriptLines now rows)[28 + 7 * i + 3]? = some (installLine r) ∧
    (scriptLines now rows)[28 + 7 * i + 4]? =
      some ("  Write-Host 'Finished: " ++ appName r ++ "' -ForegroundColor Green") ∧
    (scriptLines now rows)[28 + 7 * i + 5]? =
      some ("\x7d catch \x7b Write-Host ('Failed: ' + " ++ psSingle (appName r) ++
        " + ' - ' + $_.Exception.Message) -ForegroundColor Red \x7d") ∧
    (∀ j l, (scriptLines now rows)[j]? = some l → isInstallLine l = true →
      ∃ k, k < rows.length ∧ j = 28 + 7 * k + 3) ∧
    (scriptLines now rows).length = 28 + 7 * rows.length + 1 := by
  refine ⟨?_, ?_, ?_, ?_, scriptLines_install_index now rows, scriptLines_length now rows⟩
  · rw [scriptLines_getElem?_block now rows i 2 r (by omega) h]
    rfl
  · rw [scriptLines_getElem?_block now rows i 3 r (by omega) h]
    rfl
  · rw [scriptLines_getElem?_block now rows i 4 r (by omega) h]
    rfl
  · rw [scriptLines_getElem?_block now rows i 5 r (by omega) h]
    simp [appBlock, psSingle, String.ext_iff]

/-! ## The script text -/

theorem textLines_block (appCount : Nat) (r : App) :
    textLines (Join (appBlock appCount r) "\n") = (appBlock appCount r).flatMap textLines := by
  cases hb : appBlock appCount r with
  | nil => exact absurd hb (by simp [appBlock])
  | cons a ls => rw [textLines_Join, List.flatMap_cons]

theorem textLines_block_of_not_mem (appCount : Nat) (r : App)
    (h : '\n' ∉ r.Name.data ∧ '\n' ∉ r.WingetID.data ∧
      '\n' ∉ r.DownloadURL.data ∧ '\n' ∉ r.Args.data) :
    textLines (Join (appBlock appCount r) "\n") = appBlock appCount r := by
  rw [textLines_block, flatMap_textLines_of_not_mem _
    (appBlock_not_mem appCount r h.1 h.2.1 h.2.2.1 h.2.2.2)]

/-- C3, as amended. For a row whose name, package id, download URL and
arguments contain no line feed, the text of the block has exactly one install
line, chosen by the row's fields: the `Install-WingetApp` call on the quoted
package id and arguments when the package id is non-empty (whatever the
download URL), the `Install-FromUrl` call on the quoted URL and arguments when
the package id is empty and the URL is not, and the fixed message when both are
empty; for the package id `Foo.Bar` with empty arguments the line is
`  Install-WingetApp 'Foo.Bar' ''`. -/
theorem block_text_install_line (appCount : Nat) (r : App)
    (h : '\n' ∉ r.Name.data ∧ '\n' ∉ r.WingetID.data ∧
      '\n' ∉ r.DownloadURL.data ∧ '\n' ∉ r.Args.data) :
    (r.WingetID ≠ "" →
      (textLines (Join (appBlock appCount r) "\n")).filter isInstallLine =
        ["  Install-WingetApp " ++ psSingle r.WingetID ++ " " ++ psSingle r.Args]) ∧
    (r.WingetID = "" → r.DownloadURL ≠ "" →
      (textLines (Join (appBlock appCount r) "\n")).filter isInstallLine =
        ["  Install-FromUrl " ++ psSingle r.DownloadURL ++ " " ++ psSingle r.Args]) ∧
    (r.WingetID = "" → r.DownloadURL = "" →
      (textLines (Join (appBlock appCount r) "\n")).filter isInstallLine =
        ["  Write-Host 'No installer info provided.' -ForegroundColor DarkYellow"]) ∧
    (r.WingetID = "Foo.Bar" → r.Args = "" →
      (textLines (Join (appBlock appCount r) "\n")).filter isInstallLine =
        ["  Install-WingetApp 'Foo.Bar' ''"]) := by
  have ht := textLines_block_of_not_mem appCount r h
  have hs := appBlock_install_line appCount r
  rw [ht, hs.1]
  refine ⟨?_, ?_, ?_, ?_⟩
  · intro h1
    rw [hs.2.2.1 h1]
  · intro h1 h2
    rw [hs.2.2.2.1 h1 h2]
  · intro h1 h2
    rw [hs.2.2.2.2.1 h1 h2]
  · intro h1 h2
    rw [hs.2.2.2.2.2 h1 h2]

/-- Witness of C3 as amended, at a row with package id `Foo.Bar` and no
arguments. -/
theorem block_text_install_line_witness :
    (textLines (Join (appBlock 1 ⟨1, 1, "Foo", "Foo.Bar", "", ""⟩) "\n")).filter isInstallLine =
      ["  Install-WingetApp 'Foo.Bar' ''"] :=
  (block_text_install_line 1 ⟨1, 1, "Foo", "Foo.Bar", "", ""⟩ (by decide)).2.2.2 rfl rfl

set_option maxRecDepth 20000 in
/-- C3, the claim as stated fails. For a row named
`x`, line feed, `  Install-WingetApp 'Evil.Pkg' ''`, line feed, `#`, with the
package id `Pkg.A`, the text of the block has five install lines, four of them
not chosen by the package id; for a row whose arguments hold a line feed
followed by an `Install-FromUrl` call, the text of the block has two. -/
theorem block_text_install_line_counterexample :
    (textLines (Join (appBlock 1
        ⟨1, 1, "x\n  Install-WingetApp 'Evil.Pkg' ''\n#", "Pkg.A", "", ""⟩) "\n")).filter
      isInstallLine =
      ["  Install-WingetApp 'Evil.Pkg' ''", "  Install-WingetApp 'Evil.Pkg' ''",
       "  Install-WingetApp 'Pkg.A' ''", "  Install-WingetApp 'Evil.Pkg' ''",
       "  Install-WingetApp ''Evil.Pkg'' ''''"] ∧
    (textLines (Join (appBlock 1
        ⟨1, 1, "A", "Pkg.A", "", "/S\n  Install-FromUrl 'x' '"⟩) "\n")).filter isInstallLine =
      ["  Install-WingetApp 'Pkg.A' '/S", "  Install-FromUrl ''x'' '''"] := by
  decide

theorem preamble_filter_function (now : Clock) :
    (preamble now).filter (fun l => HasPrefix l "function ") =
      ["function Install-WingetApp \x7b param([string]$Id, [string]$Args)",
       "function Install-FromUrl \x7b param([string]$Url, [string]$Args)"] := by
  have h0 : ∀ x : String, HasPrefix ("# Generated on: " ++ x) "function " = false := by
    intro x; simp [HasPrefix, List.isPrefixOf]
  have h1 : ¬ ((fun l => HasPrefix l "function ")
      ("# Generated on: " ++ formatStamp now) = true) := by
    show ¬ (HasPrefix ("# Generated on: " ++ formatStamp now) "function " = true)
    rw [h0]; decide
  unfold preamble
  rw [List.filter_cons_of_neg (by decide),
    @List.filter_cons_of_neg _ (fun l => HasPrefix l "function ") _ _ h1]
  decide

theorem scriptLines_filter_function (now : Clock) (rows : List App) :
    (scriptLines now rows).filter (fun l => HasPrefix l "function ") =
      ["function Install-WingetApp \x7b param([string]$Id, [string]$Args)",
       "function Install-FromUrl \x7b param([string]$Url, [string]$Args)"] := by
  have hb : (blocksFrom 0 rows).filter (fun l => HasPrefix l "function ") = [] := by
    rw [List.filter_eq_nil_iff]
    intro l hl
    have h2 : HasPrefix l "function " = false :=
      blocksFrom_not_function 0 rows "unction ".data l hl
    simp [h2]
  have hf : [footer rows.length].filter (fun l => HasPrefix l "function ") = [] := by
    unfold footer
    split_ifs <;> decide
  rw [scriptLines_eq, List.filter_append, List.filter_append, hb, hf, preamble_filter_function]
  rfl

/-- C6, as amended. For every list of rows and every clock reading the script
is the join by line feeds of the preamble, the blocks of the rows in input order
(numbered from 1), and one footer line. The preamble depends on the clock
reading only and makes up the first 28 lines of the script: the title comment,
the `# Generated on:` comment, the `$ErrorActionPreference = 'Stop'` directive,
the definition of the `Install-WingetApp` helper, the definition of the
`Install-FromUrl` helper, then the starting banner. When no field of a row
contains a line feed, the lines of the script that begin a function definition
are exactly the heads of the two helpers, each once, whatever the number of
rows. -/
theorem script_layout (now : Clock) (rows : List App) :
    script now rows =
      Join (preamble now ++ (rows.enumFrom 1).flatMap (fun p => appBlock p.1 p.2) ++
        [footer rows.length]) "\n" ∧
    (textLines (script now rows)).take 28 = [
      "# SetupForMe - Generated Installation Script",
      "# Generated on: " ++ formatStamp now,
      "",
      "$ErrorActionPreference = 'Stop'",
      "",
      "function Install-WingetApp \x7b param([string]$Id, [string]$Args)",
      "  $argList = \"-e --id $Id --accept-source-agreements --accept-package-agreements\"",
      "  if ($Args -and $Args.Trim() -ne '') \x7b $argList = \"$argList $Args\" \x7d",
      "  Write-Host \"winget $argList\" -ForegroundColor Cyan",
      "  Start-Process 'winget' -ArgumentList $argList -Wait -NoNewWindow",
      "\x7d",
      "",
      "function Install-FromUrl \x7b param([string]$Url, [string]$Args)",
      "  $fileName = [System.IO.Path]::GetFileName(([System.Uri]$Url).AbsolutePath)",
      "  if ([string]::IsNullOrWhiteSpace($fileName)) \x7b $fileName = 'installer.exe' \x7d",
      "  $dest = Join-Path $env:TEMP (\"SetupForMe_\" + [guid]::NewGuid().ToString() + '_' + $fileName)",
      "  Write-Host \"Downloading $Url to $dest\" -ForegroundColor DarkCyan",
      "  Invoke-WebRequest -Uri $Url -OutFile $dest",
      "  $psi = New-Object System.Diagnostics.ProcessStartInfo",
      "  $psi.FileName = $dest",
      "  if ($Args -and $Args.Trim() -ne '') \x7b $psi.Arguments = $Args \x7d",
      "  $psi.UseShellExecute = $true",
      "  $p = [System.Diagnostics.Process]::Start($psi)",
      "  $p.WaitForExit()",
      "\x7d",
      "",
      "Write-Host 'Starting application installation...' -ForegroundColor Green",
      ""] ∧
    ((∀ r ∈ rows, '\n' ∉ r.Name.data ∧ '\n' ∉ r.WingetID.data ∧
        '\n' ∉ r.DownloadURL.data ∧ '\n' ∉ r.Args.data) →
      (textLines (script now rows)).filter (fun l => HasPrefix l "function ") =
        ["function Install-WingetApp \x7b param([string]$Id, [string]$Args)",
         "function Install-FromUrl \x7b param([string]$Url, [string]$Args)"]) := by
  refine ⟨?_, ?_, ?_⟩
  · rw [script, scriptLines_eq, blocksFrom_eq_flatMap]
  · rw [textLines_script_blocks, List.append_assoc]
    have hl : (preamble now).length = 28 := rfl
    rw [List.take_append_of_le_length (by omega), List.take_of_length_le (by omega)]
    rfl
  · intro h
    rw [textLines_script_of_not_mem now rows h, scriptLines_filter_function]

/-- Witness of C6 as amended, at two rows without line feeds. -/
theorem script_layout_witness :
    (textLines (script ⟨2024, 3, 5, 7, 8, 9⟩
      [⟨42, 1, "A", "Pkg.A", "", ""⟩, ⟨7, 1, "B", "", "https://example.com/b.exe", "/S"⟩])).filter
      (fun l => HasPrefix l "function ") =
      ["function Install-WingetApp \x7b param([string]$Id, [string]$Args)",
       "function Install-FromUrl \x7b param([string]$Url, [string]$Args)"] :=
  (script_layout ⟨2024, 3, 5, 7, 8, 9⟩
    [⟨42, 1, "A", "Pkg.A", "", ""⟩, ⟨7, 1, "B", "", "https://example.com/b.exe", "/S"⟩]).2.2
    (by decide)

/-- C6, the claim as stated fails. For one row whose name holds a line feed
followed by a definition of `Install-WingetApp` with an empty body, six lines of
the script begin a function definition, five of them a definition of
`Install-WingetApp`; for one row whose arguments hold a line feed followed by a
definition of `Install-FromUrl`, three lines of the script begin a function
definition. -/
theorem script_layout_counterexample :
    (textLines (script ⟨2024, 3, 5, 7, 8, 9⟩
      [⟨1, 1, "x\nfunction Install-WingetApp \x7b \x7d", "Pkg.A", "", ""⟩])).filter
      (fun l => HasPrefix l "function ") =
      ["function Install-WingetApp \x7b param([string]$Id, [string]$Args)",
       "function Install-FromUrl \x7b param([string]$Url, [string]$Args)",
       "function Install-WingetApp \x7b \x7d",
       "function Install-WingetApp \x7b \x7d...' -ForegroundColor Yellow",
       "function Install-WingetApp \x7b \x7d' -ForegroundColor Green",
       "function Install-WingetApp \x7b \x7d' + ' - ' + $_.Exception.Message) -ForegroundColor Red \x7d"] ∧
    (textLines (script ⟨2024, 3, 5, 7, 8, 9⟩
      [⟨1, 1, "A", "Pkg.A", "", "\nfunction Install-FromUrl \x7b \x7d"⟩])).filter
      (fun l => HasPrefix l "function ") =
      ["function Install-WingetApp \x7b param([string]$Id, [string]$Args)",
       "function Install-FromUrl \x7b param([string]$Url, [string]$Args)",
       "function Install-FromUrl \x7b \x7d'"] := by
  rw [textLines_script_blocks, textLines_script_blocks, List.filter_append, List.filter_append,
    List.filter_append, List.filter_append, preamble_filter_function]
  decide

/-- C7, as amended. Generating a block never fails: every row yields a block
of seven lines, whatever its fields are. Failure isolation is per row, for rows
whose name, package id, download URL and arguments contain no line feed: for the
row at position `i` of the input (counted from 0), the lines of its block stand
in the script with the `try` line first, the install line next, the `Finished:`
line after it and the `catch` line last, the catch line reporting `'Failed: '`,
the quoted display name, `' - '` and `$_.Exception.Message`; and every install
line of the script is the install line of some row's block, so it stands
between that block's `try` and `catch` lines. -/
theorem script_text_try_catch (now : Clock) (rows : List App) (i : Nat) (r : App) :
    (∀ (appCount : Nat) (x : App), (appBlock appCount x).length = 7) ∧
    (scriptLines now rows).length = 28 + 7 * rows.length + 1 ∧
    ((∀ r ∈ rows, '\n' ∉ r.Name.data ∧ '\n' ∉ r.WingetID.data ∧
        '\n' ∉ r.DownloadURL.data ∧ '\n' ∉ r.Args.data) →
      rows[i]? = some r →
      (textLines (script now rows))[28 + 7 * i + 2]? = some "try \x7b" ∧
      (textLines (script now rows))[28 + 7 * i + 3]? = some (installLine r) ∧
      (textLines (script now rows))[28 + 7 * i + 4]? =
        some ("  Write-Host 'Finished: " ++ appName r ++ "' -ForegroundColor Green") ∧
      (textLines (script now rows))[28 + 7 * i + 5]? =
        some ("\x7d catch \x7b Write-Host ('Failed: ' + " ++ psSingle (appName r) ++
          " + ' - ' + $_.Exception.Message) -ForegroundColor Red \x7d") ∧
      (∀ j l, (textLines (script now rows))[j]? = some l → isInstallLine l = true →
        ∃ k, k < rows.length ∧ j = 28 + 7 * k + 3) ∧
      (textLines (script now rows)).length = 28 + 7 * rows.length + 1) := by
  refine ⟨fun _ _ => rfl, scriptLines_length now rows, ?_⟩
  intro hlf h
  rw [textLines_script_of_not_mem now rows hlf]
  exact block_try_catch now rows i r h

/-- Witness of C7 as amended, at the second of two rows. -/
theorem script_text_try_catch_witness :
    (textLines (script ⟨2024, 3, 5, 7, 8, 9⟩
      [⟨42, 1, "A", "Pkg.A", "", ""⟩, ⟨7, 1, "B", "", "https://example.com/b.exe", "/S"⟩]))[38]? =
      some "  Install-FromUrl 'https://example.com/b.exe' '/S'" := by
  have h := ((script_text_try_catch ⟨2024, 3, 5, 7, 8, 9⟩
    [⟨42, 1, "A", "Pkg.A", "", ""⟩, ⟨7, 1, "B", "", "https://example.com/b.exe", "/S"⟩] 1
    ⟨7, 1, "B", "", "https://example.com/b.exe", "/S"⟩).2.2 (by decide) rfl).2.1
  rw [h]
  decide

theorem preamble_not_try (now : Clock) : "try \x7b" ∉ preamble now := by
  have h0 : ∀ x : String, "try \x7b" ≠ "# Generated on: " ++ x := by
    intro x e
    have hd := congrArg String.data e
    simp at hd
  intro hm
  unfold preamble at hm
  rw [List.mem_cons, List.mem_cons] at hm
  rcases hm with hm | hm | hm
  · exact absurd hm (by decide)
  · exact h0 _ hm
  · exact absurd hm (by decide)

/-- C7, the claim as stated fails. For one row named
`x`, line feed, `  Install-WingetApp 'Evil.Pkg' ''`, line feed, `#`, the line
of the script at position 29 (counted from 0) is an install line, while no `try`
line stands before it: the first `try` line is at position 34. For one row whose
arguments hold a line feed, a `catch` line, a line feed and an `Install-FromUrl`
call, the script has a `catch` line at position 32 and an install line right
after it, at position 33. -/
theorem script_text_try_catch_counterexample :
    ((textLines (script ⟨2024, 3, 5, 7, 8, 9⟩
      [⟨1, 1, "x\n  Install-WingetApp 'Evil.Pkg' ''\n#", "Pkg.A", "", ""⟩]))[29]? =
      some "  Install-WingetApp 'Evil.Pkg' ''" ∧
    isInstallLine "  Install-WingetApp 'Evil.Pkg' ''" = true ∧
    "try \x7b" ∉ (textLines (script ⟨2024, 3, 5, 7, 8, 9⟩
      [⟨1, 1, "x\n  Install-WingetApp 'Evil.Pkg' ''\n#", "Pkg.A", "", ""⟩])).take 34 ∧
    (textLines (script ⟨2024, 3, 5, 7, 8, 9⟩
      [⟨1, 1, "x\n  Install-WingetApp 'Evil.Pkg' ''\n#", "Pkg.A", "", ""⟩]))[34]? =
      some "try \x7b") ∧
    ((textLines (script ⟨2024, 3, 5, 7, 8, 9⟩
      [⟨1, 1, "A", "Pkg.A", "", "\n\x7d catch \x7b \x7d\n  Install-FromUrl 'x' '"⟩]))[32]? =
      some "\x7d catch \x7b \x7d" ∧
    (textLines (script ⟨2024, 3, 5, 7, 8, 9⟩
      [⟨1, 1, "A", "Pkg.A", "", "\n\x7d catch \x7b \x7d\n  Install-FromUrl 'x' '"⟩]))[33]? =
      some "  Install-FromUrl ''x'' '''" ∧
    isInstallLine "  Install-FromUrl ''x'' '''" = true) := by
  have hl : (preamble ⟨2024, 3, 5, 7, 8, 9⟩).length = 28 := rfl
  have hg : ∀ (k : Nat) (t : List String),
      (preamble ⟨2024, 3, 5, 7, 8, 9⟩ ++ t)[28 + k]? = t[k]? := by
    intro k t
    rw [List.getElem?_append_right (by omega), hl]
    congr 1
    omega
  have ht : ∀ t : List String,
      (preamble ⟨2024, 3, 5, 7, 8, 9⟩ ++ t).take 34 = preamble ⟨2024, 3, 5, 7, 8, 9⟩ ++ t.take 6 := by
    intro t
    rw [List.take_append_eq_append_take, hl, List.take_of_length_le (by omega)]
  rw [textLines_script_blocks, textLines_script_blocks, List.append_assoc, List.append_assoc,
    hg 1, hg 6, hg 4, hg 5, ht]
  refine ⟨⟨by decide, by decide, ?_, by decide⟩, by decide, by decide, by decide⟩
  rw [List.mem_append, not_or]
  exact ⟨preamble_not_try _, by decide⟩

/-! ## The handlers -/

theorem find?_of_nodup (apps : List App) (a : App) (hid : (apps.map App.ID).Nodup)
    (ha : a ∈ apps) : apps.find? (fun x => x.ID = a.ID) = some a := by
  induction apps with
  | nil => simp at ha
  | cons x xs ih =>
    rw [List.map_cons, List.nodup_cons] at hid
    rw [List.mem_cons] at ha
    by_cases hx : x.ID = a.ID
    · rcases ha with ha | ha
      · subst ha
        simp
      · exfalso
        apply hid.1
        rw [hx]
        exact List.mem_map_of_mem _ ha
    · have hne : a ≠ x := fun e => hx (by rw [e])
      rcases ha with ha | ha
      · exact absurd ha hne
      · simp [List.find?, hx, ih hid.2 ha]

theorem queryOwner_of_mem (db : DB) (a : App) (hid : (db.apps.map App.ID).Nodup)
    (ha : a ∈ db.apps) : queryOwner db a.ID = .ok a.UserID := by
  simp [queryOwner, find?_of_nodup db.apps a hid ha]

theorem TrimSpace_of_all_space (s : String) (h : ∀ c ∈ s.data, isSpace c = true) :
    TrimSpace s = "" := by
  have h1 : s.data.dropWhile isSpace = [] := List.dropWhile_eq_nil_iff.mpr h
  simp [TrimSpace, h1]

/-- C8. For a stored row and an acting user who is not its owner, `UpdateApp`
and `DeleteApp` answer 403, leave the table as it is and perform no effect but
the ownership query: the body is not decoded, whatever it is, and no `UPDATE` or
`DELETE` is issued. -/
theorem non_owner_forbidden (env : Env) (db : DB) (a : App) (userID : Int)
    (body : Option UpdateAppRequest) (ha : a ∈ db.apps) (hid : (db.apps.map App.ID).Nodup)
    (hne : userID ≠ a.UserID) :
    UpdateApp env db userID (some a.ID) body =
      ⟨.error 403 "You can only update your own apps", db, [.queryOwner a.ID]⟩ ∧
    DeleteApp db userID (some a.ID) =
      ⟨.error 403 "You can only delete your own apps", db, [.queryOwner a.ID]⟩ := by
  have hq := queryOwner_of_mem db a hid ha
  have hne2 : a.UserID ≠ userID := fun e => hne e.symm
  constructor
  · simp [UpdateApp, hq, hne2]
  · simp [DeleteApp, hq, hne2]

/-- Witness of C8: user 2 acts on the row of user 1, with a body that would fail
validation. -/
theorem non_owner_forbidden_witness :
    UpdateApp exampleEnv exampleDB 2 (some 1) (some ⟨"", "", "", ""⟩) =
      ⟨.error 403 "You can only update your own apps", exampleDB, [.queryOwner 1]⟩ ∧
    DeleteApp exampleDB 2 (some 1) =
      ⟨.error 403 "You can only delete your own apps", exampleDB, [.queryOwner 1]⟩ :=
  non_owner_forbidden exampleEnv exampleDB ⟨1, 1, "A", "Pkg.A", "", ""⟩ 2
    (some ⟨"", "", "", ""⟩) (by decide) (by decide) (by decide)

/-- C9. A create request whose name is empty or made of white space only is
answered 400 whatever its other fields are and whatever the table holds, with no
effect but the decoding of the body: the name resolver is not called and no row
is inserted. The same rule answers 400 to the owner's update request, with the
table unchanged and no `UPDATE` issued. -/
theorem blank_name_rejected (env : Env) (db : DB) (userID : Int) (req : CreateAppRequest)
    (a : App) (ureq : UpdateAppRequest) :
    ((∀ c ∈ req.Name.data, isSpace c = true) →
      CreateApp env db userID (some req) =
        ⟨.error 400 "App name is required", db, [.decodeBody]⟩) ∧
    (a ∈ db.apps → (db.apps.map App.ID).Nodup → (∀ c ∈ ureq.Name.data, isSpace c = true) →
      UpdateApp env db a.UserID (some a.ID) (some ureq) =
        ⟨.error 400 "App name is required", db, [.queryOwner a.ID, .decodeBody]⟩) := by
  constructor
  · intro hname
    have h1 := TrimSpace_of_all_space _ hname
    simp [CreateApp, h1]
  · intro ha hid huname
    have hq := queryOwner_of_mem db a hid ha
    have h2 := TrimSpace_of_all_space _ huname
    simp [UpdateApp, updateTail, hq, h2]

/-- Witness of C9: a name of blanks and a tab with a valid package id and URL,
sent to an empty table, and an empty name in the owner's update. -/
theorem blank_name_rejected_witness :
    CreateApp exampleEnv ⟨[], 0⟩ 1
        (some ⟨" \t ", "Pkg.B", "https://example.com/setup.exe", "/S"⟩) =
      ⟨.error 400 "App name is required", ⟨[], 0⟩, [.decodeBody]⟩ ∧
    UpdateApp exampleEnv exampleDB 1 (some 1) (some ⟨"", "Pkg.B", "", ""⟩) =
      ⟨.error 400 "App name is required", exampleDB, [.queryOwner 1, .decodeBody]⟩ :=
  ⟨(blank_name_rejected exampleEnv ⟨[], 0⟩ 1
      ⟨" \t ", "Pkg.B", "https://example.com/setup.exe", "/S"⟩ ⟨1, 1, "A", "Pkg.A", "", ""⟩
      ⟨"", "Pkg.B", "", ""⟩).1 (by decide),
    (blank_name_rejected exampleEnv exampleDB 1
      ⟨" \t ", "Pkg.B", "https://example.com/setup.exe", "/S"⟩ ⟨1, 1, "A", "Pkg.A", "", ""⟩
      ⟨"", "Pkg.B", "", ""⟩).2 (by decide) (by decide) (by decide)⟩

theorem isValidURL_iff (env : Env) (u : String) :
    isValidURL env u = true ↔
      ∃ p, env.urlParse u = some p ∧ p.Scheme = "https" ∧ p.Host ≠ "" := by
  unfold isValidURL
  cases h : env.urlParse u with
  | none => simp
  | some p =>
    by_cases h1 : p.Scheme = "https" <;> by_cases h2 : p.Host = "" <;> simp [h1, h2]

theorem createTail_invalid (env : Env) (db : DB) (userID : Int) (req : CreateAppRequest)
    (trace : List Effect) (h1 : req.DownloadURL ≠ "")
    (h2 : isValidURL env req.DownloadURL = false) :
    createTail env db userID req trace = ⟨.error 400 "Invalid download URL", db, trace⟩ := by
  simp [createTail, h1, h2]

/-- C10, as amended. `isValidURL` accepts exactly the strings that `url.Parse`
parses to a URL with scheme `https` and a non-empty host. Every create request
with a non-empty download URL that fails this test is answered 400, with the
table unchanged and no write issued, whatever the table holds and also when a
package id is supplied; so is an update request with such a URL made by the
owner of the row. -/
theorem invalid_url_rejected (env : Env) (db : DB) (userID : Int) (u : String)
    (req : CreateAppRequest) (a : App) (ureq : UpdateAppRequest) :
    (isValidURL env u = true ↔
      ∃ p, env.urlParse u = some p ∧ p.Scheme = "https" ∧ p.Host ≠ "") ∧
    (req.DownloadURL ≠ "" → isValidURL env req.DownloadURL = false →
      (CreateApp env db userID (some req)).resp.status = 400 ∧
      (CreateApp env db userID (some req)).db = db ∧
      ∀ e ∈ (CreateApp env db userID (some req)).trace, e.isWrite = false) ∧
    (a ∈ db.apps → (db.apps.map App.ID).Nodup →
      ureq.DownloadURL ≠ "" → isValidURL env ureq.DownloadURL = false →
      (UpdateApp env db a.UserID (some a.ID) (some ureq)).resp.status = 400 ∧
      (UpdateApp env db a.UserID (some a.ID) (some ureq)).db = db ∧
      ∀ e ∈ (UpdateApp env db a.UserID (some a.ID) (some ureq)).trace, e.isWrite = false) := by
  refine ⟨isValidURL_iff env u, ?_, ?_⟩
  · intro h1 h2
    unfold CreateApp
    simp only
    split_ifs
    · simp [Response.status, Effect.isWrite]
    · cases hr : ResolveWingetID env req.Name with
      | error e => simp [Response.status, Effect.isWrite]
      | ok id =>
        by_cases hid : id = ""
        · simp [hid, Response.status, Effect.isWrite]
        · simp [hid, createTail, h1, h2, Response.status, Effect.isWrite]
    · simp [createTail, h1, h2, Response.status, Effect.isWrite]
  · intro ha hid h3 h4
    have hq := queryOwner_of_mem db a hid ha
    simp only [UpdateApp, hq, updateTail]
    simp only [ne_eq, not_true_eq_false, if_false]
    split_ifs <;> simp_all [Response.status, Effect.isWrite]

/-- Witness of C10 as amended: the URL `http://example.com/x` next to a package
id, in a create request to an empty table and in the owner's update request. -/
theorem invalid_url_rejected_witness :
    (CreateApp exampleEnv ⟨[], 0⟩ 1
      (some ⟨"B", "Pkg.B", "http://example.com/x", ""⟩)).resp.status = 400 ∧
    (UpdateApp exampleEnv exampleDB 1 (some 1)
      (some ⟨"A", "Pkg.A", "http://example.com/x", ""⟩)).resp.status = 400 :=
  ⟨((invalid_url_rejected exampleEnv ⟨[], 0⟩ 1 "http://example.com/x"
      ⟨"B", "Pkg.B", "http://example.com/x", ""⟩ ⟨1, 1, "A", "Pkg.A", "", ""⟩
      ⟨"A", "Pkg.A", "http://example.com/x", ""⟩).2.1 (by decide) (by decide)).1,
    ((invalid_url_rejected exampleEnv exampleDB 1 "http://example.com/x"
      ⟨"B", "Pkg.B", "http://example.com/x", ""⟩ ⟨1, 1, "A", "Pkg.A", "", ""⟩
      ⟨"A", "Pkg.A", "http://example.com/x", ""⟩).2.2 (by decide) (by decide) (by decide)
      (by decide)).1⟩

/-- C10, the claim as stated fails. An update request with the download URL
`http://example.com/x`, which fails `isValidURL`, made by user 2 on the row of
user 1 is answered 403, not 400. -/
theorem invalid_url_rejected_counterexample :
    ("http://example.com/x" ≠ "" ∧ isValidURL exampleEnv "http://example.com/x" = false) ∧
    (UpdateApp exampleEnv exampleDB 2 (some 1)
      (some ⟨"A", "Pkg.A", "http://example.com/x", ""⟩)).resp.status = 403 ∧
    (UpdateApp exampleEnv exampleDB 2 (some 1)
      (some ⟨"A", "Pkg.A", "http://example.com/x", ""⟩)).resp.status ≠ 400 := by
  decide

/-! ## Auto-resolution and the accepted records -/

theorem TrimSpace_empty : TrimSpace "" = "" := by
  decide

theorem ne_empty_of_TrimSpace_ne (s : String) (h : TrimSpace s ≠ "") : s ≠ "" := by
  intro e
  rw [e] at h
  exact h TrimSpace_empty

theorem fitsColumns_of_le (name wingetID : String) (h1 : name.length ≤ 255)
    (h2 : wingetID.length ≤ 255) : fitsColumns name wingetID = true := by
  simp [fitsColumns, h1, h2]

theorem createTail_accept (env : Env) (db : DB) (userID : Int) (req : CreateAppRequest)
    (trace : List Effect) (h : req.DownloadURL ≠ "" → isValidURL env req.DownloadURL = true)
    (hf : fitsColumns req.Name req.WingetID = true) :
    createTail env db userID req trace =
      ⟨.app 201 ⟨db.lastID + 1, userID, req.Name, req.WingetID, req.DownloadURL, req.Args⟩,
        ⟨db.apps ++ [⟨db.lastID + 1, userID, req.Name, req.WingetID, req.DownloadURL, req.Args⟩],
          db.lastID + 1⟩,
        trace ++ [.insert userID req.Name req.WingetID req.DownloadURL req.Args]⟩ := by
  have hc : ¬ (req.DownloadURL ≠ "" ∧ ¬ isValidURL env req.DownloadURL = true) := by
    intro hh
    exact hh.2 (h hh.1)
  simp only [createTail, hc, if_false, execInsert, hf, if_true]

theorem createTail_filter_resolve (env : Env) (db : DB) (userID : Int)
    (req : CreateAppRequest) (trace : List Effect) :
    (createTail env db userID req trace).trace.filter Effect.isResolve =
      trace.filter Effect.isResolve := by
  unfold createTail execInsert
  split_ifs <;> simp [Effect.isResolve]

/-- C11, as amended. For a create request with a non-blank name and empty
package id and download URL, the resolver is called exactly once, with the name.
When it fails or returns the empty identifier the answer is 400 and the table is
unchanged; when it returns a non-empty identifier the row is inserted with that
identifier as its package id, provided the name and the identifier have at most
255 characters. When the package id or the download URL is non-empty after
trimming white space, the resolver is not called; the supplied values are
stored unchanged provided a non-empty download URL passes `isValidURL` and the
name and the package id have at most 255 characters; a request with a non-empty
download URL that fails `isValidURL` is answered 400 with the table
unchanged. -/
theorem create_auto_resolve (env : Env) (db : DB) (userID : Int) (req : CreateAppRequest)
    (hname : TrimSpace req.Name ≠ "") :
    (req.WingetID = "" → req.DownloadURL = "" →
      (CreateApp env db userID (some req)).trace.filter Effect.isResolve =
        [.resolve req.Name] ∧
      (∀ id, ResolveWingetID env req.Name = .ok id → id ≠ "" →
        req.Name.length ≤ 255 → id.length ≤ 255 →
        CreateApp env db userID (some req) =
          ⟨.app 201 ⟨db.lastID + 1, userID, req.Name, id, "", req.Args⟩,
            ⟨db.apps ++ [⟨db.lastID + 1, userID, req.Name, id, "", req.Args⟩], db.lastID + 1⟩,
            [.decodeBody, .resolve req.Name, .insert userID req.Name id "" req.Args]⟩) ∧
      ((∀ id, ResolveWingetID env req.Name = .ok id → id = "") →
        CreateApp env db userID (some req) =
          ⟨.error 400 "Either winget_id or download_url is required (auto-resolve failed)", db,
            [.decodeBody, .resolve req.Name]⟩)) ∧
    (¬ (TrimSpace req.WingetID = "" ∧ TrimSpace req.DownloadURL = "") →
      (CreateApp env db userID (some req)).trace.filter Effect.isResolve = [] ∧
      ((req.DownloadURL ≠ "" → isValidURL env req.DownloadURL = true) →
        req.Name.length ≤ 255 → req.WingetID.length ≤ 255 →
        CreateApp env db userID (some req) =
          ⟨.app 201 ⟨db.lastID + 1, userID, req.Name, req.WingetID, req.DownloadURL, req.Args⟩,
            ⟨db.apps ++
              [⟨db.lastID + 1, userID, req.Name, req.WingetID, req.DownloadURL, req.Args⟩],
              db.lastID + 1⟩,
            [.decodeBody, .insert userID req.Name req.WingetID req.DownloadURL req.Args]⟩) ∧
      (req.DownloadURL ≠ "" → isValidURL env req.DownloadURL = false →
        CreateApp env db userID (some req) =
          ⟨.error 400 "Invalid download URL", db, [.decodeBody]⟩)) := by
  refine ⟨?_, ?_⟩
  · intro hw hu
    have hb : TrimSpace req.WingetID = "" ∧ TrimSpace req.DownloadURL = "" := by
      rw [hw, hu]; exact ⟨TrimSpace_empty, TrimSpace_empty⟩
    refine ⟨?_, ?_, ?_⟩
    · simp only [CreateApp, hname, hb, if_false, if_true, and_self]
      cases hres : ResolveWingetID env req.Name with
      | error e => simp [Effect.isResolve]
      | ok id =>
        by_cases hid : id = ""
        · simp [hid, Effect.isResolve]
        · simp only [hid, ne_eq, not_false_eq_true, if_true, createTail_filter_resolve]
          simp [Effect.isResolve]
    · intro id hr hid hn hl
      simp only [CreateApp, hname, hb, if_false, if_true, and_self, hr, hid, ne_eq,
        not_false_eq_true]
      rw [createTail_accept env db userID ⟨req.Name, id, req.DownloadURL, req.Args⟩ _
        (by simp [hu]) (fitsColumns_of_le _ _ hn hl)]
      simp [hu]
    · intro hr
      simp only [CreateApp, hname, hb, if_false, if_true, and_self]
      cases hres : ResolveWingetID env req.Name with
      | error e => rfl
      | ok id =>
        have := hr id hres
        simp [this]
  · intro hb
    refine ⟨?_, ?_, ?_⟩
    · simp only [CreateApp, hname, hb, if_false, createTail_filter_resolve]
      simp [Effect.isResolve]
    · intro hv hn hl
      simp only [CreateApp, hname, hb, if_false]
      rw [createTail_accept _ _ _ _ _ hv (fitsColumns_of_le _ _ hn hl)]
      rfl
    · intro h1 h2
      simp only [CreateApp, hname, hb, if_false]
      exact createTail_invalid _ _ _ _ _ h1 h2

/-- Witness of C11 as amended: a request with only the name `B`, for which the
package search finds `Pkg.B`. -/
theorem create_auto_resolve_witness :
    CreateApp resolvingEnv exampleDB 1 (some ⟨"B", "", "", ""⟩) =
      ⟨.app 201 ⟨2, 1, "B", "Pkg.B", "", ""⟩,
        ⟨[⟨1, 1, "A", "Pkg.A", "", ""⟩, ⟨2, 1, "B", "Pkg.B", "", ""⟩], 2⟩,
        [.decodeBody, .resolve "B", .insert 1 "B" "Pkg.B" "" ""]⟩ :=
  ((create_auto_resolve resolvingEnv exampleDB 1 ⟨"B", "", "", ""⟩ (by decide)).1 rfl rfl).2.1
    "Pkg.B" rfl (by decide) (by decide) (by decide)

set_option maxRecDepth 20000 in
/-- C11, the claim as stated fails. With the package id of one blank, which is
a non-empty string, and no download URL, the resolver is called and the supplied
package id is replaced by the one it returns. With a package id and the
non-empty download URL `http://example.com/x` the resolver is not called, yet
nothing is stored: the answer is 400. With a name of 256 letters and nothing
else, the resolver returns `Pkg.B`, yet no record is created: the table refuses
the name and the answer is 500. -/
theorem create_auto_resolve_counterexample :
    (" " ≠ "" ∧
      CreateApp resolvingEnv exampleDB 1 (some ⟨"B", " ", "", ""⟩) =
        ⟨.app 201 ⟨2, 1, "B", "Pkg.B", "", ""⟩,
          ⟨[⟨1, 1, "A", "Pkg.A", "", ""⟩, ⟨2, 1, "B", "Pkg.B", "", ""⟩], 2⟩,
          [.decodeBody, .resolve "B", .insert 1 "B" "Pkg.B" "" ""]⟩) ∧
    CreateApp resolvingEnv exampleDB 1 (some ⟨"B", "Pkg.X", "http://example.com/x", ""⟩) =
      ⟨.error 400 "Invalid download URL", exampleDB, [.decodeBody]⟩ ∧
    CreateApp resolvingEnv exampleDB 1 (some ⟨String.mk (List.replicate 256 'a'), "", "", ""⟩) =
      ⟨.error 500 "Failed to create app", exampleDB,
        [.decodeBody, .resolve (String.mk (List.replicate 256 'a')),
          .insert 1 (String.mk (List.replicate 256 'a')) "Pkg.B" "" ""]⟩ := by
  decide

theorem installLine_of_fields (appCount : Nat) (a : App)
    (h : a.WingetID ≠ "" ∨ a.DownloadURL ≠ "") :
    (installLine a = "  Install-WingetApp " ++ psSingle a.WingetID ++ " " ++ psSingle a.Args ∨
      installLine a = "  Install-FromUrl " ++ psSingle a.DownloadURL ++ " " ++ psSingle a.Args) ∧
    noInstallerLine ∉ appBlock appCount a := by
  have hline : installLine a ≠ noInstallerLine := by
    unfold installLine
    split_ifs with h1 h2
    · intro e
      have hd := congrArg String.data e
      simp [noInstallerLine] at hd
    · intro e
      have hd := congrArg String.data e
      simp [noInstallerLine] at hd
    · rcases h with h | h
      · exact absurd h (by simpa using h1)
      · exact absurd h (by simpa using h2)
  constructor
  · unfold installLine
    split_ifs with h1 h2
    · exact Or.inl rfl
    · exact Or.inr rfl
    · rcases h with h | h
      · exact absurd h (by simpa using h1)
      · exact absurd h (by simpa using h2)
  · intro hm
    obtain ⟨k, hk⟩ := List.mem_iff_getElem?.mp hm
    have h3 := appBlock_install_index appCount a k noInstallerLine hk (by decide)
    subst h3
    have he : (appBlock appCount a)[3]? = some (installLine a) := rfl
    rw [he] at hk
    exact hline (Option.some.inj hk)

theorem createTail_resp (env : Env) (db : DB) (userID : Int) (req : CreateAppRequest)
    (trace : List Effect) (status : Nat) (a : App)
    (h : (createTail env db userID req trace).resp = .app status a) :
    a = ⟨db.lastID + 1, userID, req.Name, req.WingetID, req.DownloadURL, req.Args⟩ ∧
    (req.DownloadURL ≠ "" → isValidURL env req.DownloadURL = true) ∧
    (createTail env db userID req trace).db.apps = db.apps ++ [a] := by
  by_cases hv : req.DownloadURL ≠ "" → isValidURL env req.DownloadURL = true
  · by_cases hf : fitsColumns req.Name req.WingetID = true
    · rw [createTail_accept env db userID req trace hv hf] at h ⊢
      simp only [Response.app.injEq] at h
      exact ⟨h.2.symm, hv, by rw [h.2]⟩
    · have hc : ¬ (req.DownloadURL ≠ "" ∧ ¬ isValidURL env req.DownloadURL = true) := by
        intro hh
        exact hh.2 (hv hh.1)
      unfold createTail at h
      rw [if_neg hc] at h
      simp [execInsert, hf] at h
  · have hc : req.DownloadURL ≠ "" ∧ ¬ isValidURL env req.DownloadURL = true := by
      by_contra hn
      exact hv (fun h1 => by_contra (fun h2 => hn ⟨h1, h2⟩))
    simp [createTail, hc] at h

theorem CreateApp_resp (env : Env) (db : DB) (userID : Int) (body : Option CreateAppRequest)
    (status : Nat) (a : App) (h : (CreateApp env db userID body).resp = .app status a) :
    (a.WingetID ≠ "" ∨ a.DownloadURL ≠ "") ∧
    (a.DownloadURL ≠ "" → isValidURL env a.DownloadURL = true) ∧
    (CreateApp env db userID body).db.apps = db.apps ++ [a] := by
  cases body with
  | none => simp [CreateApp] at h
  | some req =>
    by_cases hn : TrimSpace req.Name = ""
    · simp [CreateApp, hn] at h
    · by_cases hb : TrimSpace req.WingetID = "" ∧ TrimSpace req.DownloadURL = ""
      · cases hr : ResolveWingetID env req.Name with
        | error e => simp [CreateApp, hn, hb, hr] at h
        | ok id =>
          by_cases hid : id = ""
          · simp [CreateApp, hn, hb, hr, hid] at h
          · simp only [CreateApp, hn, hb, hr, hid, if_false, if_true, and_self, ne_eq,
              not_false_eq_true] at h ⊢
            obtain ⟨h1, h2, h3⟩ := createTail_resp _ _ _ _ _ _ _ h
            refine ⟨?_, ?_, h3⟩
            · rw [h1]; exact Or.inl hid
            · rw [h1]; exact h2
      · simp only [CreateApp, hn, hb, if_false] at h ⊢
        obtain ⟨h1, h2, h3⟩ := createTail_resp _ _ _ _ _ _ _ h
        refine ⟨?_, ?_, h3⟩
        · rw [h1]
          by_cases hw : TrimSpace req.WingetID = ""
          · have hu : TrimSpace req.DownloadURL ≠ "" := fun e => hb ⟨hw, e⟩
            exact Or.inr (ne_empty_of_TrimSpace_ne _ hu)
          · exact Or.inl (ne_empty_of_TrimSpace_ne _ hw)
        · rw [h1]; exact h2

theorem UpdateApp_resp (env : Env) (db : DB) (userID : Int) (pathID : Option Int)
    (body : Option UpdateAppRequest) (status : Nat) (a : App)
    (h : (UpdateApp env db userID pathID body).resp = .app status a) :
    (a.WingetID ≠ "" ∨ a.DownloadURL ≠ "") ∧
    (a.DownloadURL ≠ "" → isValidURL env a.DownloadURL = true) ∧
    ∃ r ∈ (UpdateApp env db userID pathID body).db.apps, r.ID = a.ID ∧ r.Name = a.Name ∧
      r.WingetID = a.WingetID ∧ r.DownloadURL = a.DownloadURL ∧ r.Args = a.Args := by
  cases pathID with
  | none => simp [UpdateApp] at h
  | some appID =>
    cases hf : db.apps.find? (fun x => x.ID = appID) with
    | none => simp [UpdateApp, queryOwner, hf] at h
    | some x =>
      have hx : x ∈ db.apps := List.mem_of_find?_eq_some hf
      have hxid : x.ID = appID := by simpa using List.find?_some hf
      by_cases ho : x.UserID = userID
      · cases body with
        | none => simp [UpdateApp, queryOwner, hf, ho, updateTail] at h
        | some req =>
          by_cases hn : TrimSpace req.Name = ""
          · simp [UpdateApp, queryOwner, hf, ho, updateTail, hn] at h
          · by_cases hb : TrimSpace req.WingetID = "" ∧ TrimSpace req.DownloadURL = ""
            · simp [UpdateApp, queryOwner, hf, ho, updateTail, hn, hb] at h
            · by_cases hc : req.DownloadURL ≠ "" ∧ ¬ isValidURL env req.DownloadURL = true
              · simp [UpdateApp, queryOwner, hf, ho, updateTail, hn, hb, hc] at h
              · by_cases hfit : fitsColumns req.Name req.WingetID = true
                swap
                · simp only [UpdateApp, queryOwner, hf, ho, updateTail, hn, hb, hc, if_false,
                    ne_eq, not_true_eq_false, execUpdate, hfit] at h
                  simp at h
                simp only [UpdateApp, queryOwner, hf, ho, updateTail, hn, hb, hc, if_false,
                  ne_eq, not_true_eq_false, execUpdate, hfit, if_true,
                  Response.app.injEq] at h ⊢
                obtain ⟨-, ha⟩ := h
                subst ha
                refine ⟨?_, ?_, ?_⟩
                · by_cases hw : TrimSpace req.WingetID = ""
                  · have hu : TrimSpace req.DownloadURL ≠ "" := fun e => hb ⟨hw, e⟩
                    exact Or.inr (ne_empty_of_TrimSpace_ne _ hu)
                  · exact Or.inl (ne_empty_of_TrimSpace_ne _ hw)
                · intro h1
                  by_contra h2
                  exact hc ⟨h1, h2⟩
                · refine ⟨⟨x.ID, x.UserID, req.Name, req.WingetID, req.DownloadURL, req.Args⟩,
                    ?_, hxid, rfl, rfl, rfl, rfl⟩
                  exact List.mem_map.mpr ⟨x, hx, by simp [hxid]⟩
      · simp [UpdateApp, queryOwner, hf, ho] at h

/-- C12. The branch without installer information is not reached for accepted
records. When `CreateApp` answers 201 with a record (after the auto-resolve
step), or `UpdateApp` answers 200 with a record, the package id or the download
URL of the record is a non-empty string, a non-empty download URL passes
`isValidURL`, the install line of the block generated for the record is the
`Install-WingetApp` or the `Install-FromUrl` call, and the
`No installer info provided.` line is not in the block; the record is the row
appended to the table, respectively its fields are those of the updated row. -/
theorem accepted_record_installs (env : Env) (db : DB) (userID : Int)
    (body : Option CreateAppRequest) (pathID : Option Int) (ubody : Option UpdateAppRequest)
    (a : App) (appCount : Nat) :
    ((CreateApp env db userID body).resp = .app 201 a →
      (a.WingetID ≠ "" ∨ a.DownloadURL ≠ "") ∧
      (a.DownloadURL ≠ "" → isValidURL env a.DownloadURL = true) ∧
      (installLine a =
          "  Install-WingetApp " ++ psSingle a.WingetID ++ " " ++ psSingle a.Args ∨
        installLine a =
          "  Install-FromUrl " ++ psSingle a.DownloadURL ++ " " ++ psSingle a.Args) ∧
      "  Write-Host 'No installer info provided.' -ForegroundColor DarkYellow" ∉
        appBlock appCount a ∧
      (CreateApp env db userID body).db.apps = db.apps ++ [a]) ∧
    ((UpdateApp env db userID pathID ubody).resp = .app 200 a →
      (a.WingetID ≠ "" ∨ a.DownloadURL ≠ "") ∧
      (a.DownloadURL ≠ "" → isValidURL env a.DownloadURL = true) ∧
      (installLine a =
          "  Install-WingetApp " ++ psSingle a.WingetID ++ " " ++ psSingle a.Args ∨
        installLine a =
          "  Install-FromUrl " ++ psSingle a.DownloadURL ++ " " ++ psSingle a.Args) ∧
      "  Write-Host 'No installer info provided.' -ForegroundColor DarkYellow" ∉
        appBlock appCount a ∧
      ∃ r ∈ (UpdateApp env db userID pathID ubody).db.apps, r.ID = a.ID ∧ r.Name = a.Name ∧
        r.WingetID = a.WingetID ∧ r.DownloadURL = a.DownloadURL ∧ r.Args = a.Args) := by
  constructor
  · intro h
    obtain ⟨h1, h2, h3⟩ := CreateApp_resp env db userID body 201 a h
    obtain ⟨h4, h5⟩ := installLine_of_fields appCount a h1
    exact ⟨h1, h2, h4, h5, h3⟩
  · intro h
    obtain ⟨h1, h2, h3⟩ := UpdateApp_resp env db userID pathID ubody 200 a h
    obtain ⟨h4, h5⟩ := installLine_of_fields appCount a h1
    exact ⟨h1, h2, h4, h5, h3⟩

/-- Witness of C12: the record created from the name `B` alone, with the
package id found by the search, and the record of the owner's update to a
download URL. -/
theorem accepted_record_installs_witness :
    "  Write-Host 'No installer info provided.' -ForegroundColor DarkYellow" ∉
      appBlock 1 ⟨2, 1, "B", "Pkg.B", "", ""⟩ ∧
    "  Write-Host 'No installer info provided.' -ForegroundColor DarkYellow" ∉
      appBlock 1 ⟨1, 1, "A", "", "https://example.com/setup.exe", "/S"⟩ := by
  have h := accepted_record_installs resolvingEnv exampleDB 1 (some ⟨"B", "", "", ""⟩) (some 1)
    (some ⟨"A", "", "https://example.com/setup.exe", "/S"⟩)
  have h1 := (h ⟨2, 1, "B", "Pkg.B", "", ""⟩ 1).1 (by decide)
  have h2 := (h ⟨1, 1, "A", "", "https://example.com/setup.exe", "/S"⟩ 1).2 (by decide)
  exact ⟨h1.2.2.2.1, h2.2.2.2.1⟩

/-- C13. The create request with the package id of one blank and the download
URL `https://example.com/setup.exe` is accepted and stored as it is; the package
id is empty after trimming white space, yet the install line of the block
generated for the stored row is the `Install-WingetApp` call on the blank, not
the `Install-FromUrl` call on the URL. -/
theorem blank_package_id_block :
    CreateApp exampleEnv exampleDB 1
        (some ⟨"B", " ", "https://example.com/setup.exe", ""⟩) =
      ⟨.app 201 ⟨2, 1, "B", " ", "https://example.com/setup.exe", ""⟩,
        ⟨[⟨1, 1, "A", "Pkg.A", "", ""⟩, ⟨2, 1, "B", " ", "https://example.com/setup.exe", ""⟩], 2⟩,
        [.decodeBody, .insert 1 "B" " " "https://example.com/setup.exe" ""]⟩ ∧
    TrimSpace " " = "" ∧
    isValidURL exampleEnv "https://example.com/setup.exe" = true ∧
    appBlock 2 ⟨2, 1, "B", " ", "https://example.com/setup.exe", ""⟩ =
      ["# App 2: B",
       "Write-Host 'Installing B...' -ForegroundColor Yellow",
       "try \x7b",
       "  Install-WingetApp ' ' ''",
       "  Write-Host 'Finished: B' -ForegroundColor Green",
       "\x7d catch \x7b Write-Host ('Failed: ' + 'B' + ' - ' + $_.Exception.Message) -ForegroundColor Red \x7d",
       ""] := by
  decide

end SetupForMe
